import Mathlib

/-!
Verification development for the birdgame multiplayer session server
(`src/unnamed/part_013`, the socket.io server).

The server's mutable state (the `players`, `lobbies`, `races`, `battles`
and `globalScores` maps) and every event handler are embedded as pure
Lean functions.  JavaScript `Map` objects are modelled as
insertion-ordered association lists (`JMap`), matching the iteration
order guarantees of `Map`/`Set` that the host-migration and ranking
logic rely on.  Nondeterministic inputs of the real server (socket ids,
generated ids, `Date.now()`, `Math.random()` outcomes) are passed to the
handlers as explicit parameters.  JavaScript numbers (positions, hp,
damage, checkpoint counts, scores, timestamps) are embedded as `Int`
(or `ℕ` for clock values): every claim below concerns comparisons,
clamping, counter updates and threshold constants whose behaviour on
integers coincides with their behaviour on any archimedean ordered
field, and none depends on fractional values or floating-point
rounding.  `Math.sqrt(x) < r` distance guards are embedded as the
equivalent comparison of squared distance with `r ^ 2` (both sides are
nonnegative).
-/

/-- Insertion-ordered association list, the model of a JavaScript `Map`
with string keys: `set` of a fresh key appends, `set` of an existing
key updates in place, iteration (`values`) follows insertion order. -/
abbrev JMap (α : Type) : Type := List (String × α)

/-- Model of JavaScript `map.get(k)`: the value at the first (unique)
occurrence of the key. -/
def jsGet {α : Type} : JMap α → String → Option α
  | [], _ => none
  | p :: r, k => if p.1 = k then some p.2 else jsGet r k

/-- Model of JavaScript `map.set(k, v)`: update in place if the key is
present, append otherwise. -/
def jsSet {α : Type} : JMap α → String → α → JMap α
  | [], k, v => [(k, v)]
  | p :: r, k, v => if p.1 = k then (p.1, v) :: r else p :: jsSet r k v

/-- Model of JavaScript `map.delete(k)`. -/
def jsDelete {α : Type} (m : JMap α) (k : String) : JMap α :=
  m.filter (fun p => p.1 ≠ k)

/-- Model of `Array.from(map.values())`: the values in insertion order. -/
def jsValues {α : Type} (m : JMap α) : List α :=
  m.map Prod.snd

/-- Model of `Array.from(map.keys())`. -/
def jsKeys {α : Type} (m : JMap α) : List String :=
  m.map Prod.fst

/-- Model of `map.get(k) || d` for a default on absence. -/
def jsGetD {α : Type} (m : JMap α) (k : String) (d : α) : α :=
  (jsGet m k).getD d

theorem jsGet_set_self {α : Type} (m : JMap α) (k : String) (v : α) :
    jsGet (jsSet m k v) k = some v := by
  induction m with
  | nil => simp [jsGet, jsSet]
  | cons p r ih =>
    by_cases h : p.1 = k
    · simp [jsGet, jsSet, h]
    · simp [jsGet, jsSet, h, ih]

theorem jsGet_set_ne {α : Type} (m : JMap α) (k k' : String) (v : α) (h : k' ≠ k) :
    jsGet (jsSet m k v) k' = jsGet m k' := by
  induction m with
  | nil => simp [jsGet, jsSet, Ne.symm h]
  | cons p r ih =>
    by_cases hk : p.1 = k
    · rw [jsSet, if_pos hk]
      rw [jsGet, jsGet, hk]
      simp [Ne.symm h]
    · rw [jsSet, if_neg hk]
      rw [jsGet, jsGet]
      by_cases hk' : p.1 = k'
      · simp [hk']
      · simp [hk', ih]

theorem mem_values_set {α : Type} (m : JMap α) (k : String) (v a : α)
    (h : a ∈ jsValues (jsSet m k v)) : a = v ∨ a ∈ jsValues m := by
  induction m with
  | nil =>
    simp [jsValues, jsSet] at h
    exact Or.inl h
  | cons p r ih =>
    by_cases hk : p.1 = k
    · rw [jsSet, if_pos hk] at h
      rcases List.mem_cons.mp h with h | h
      · exact Or.inl h
      · exact Or.inr (by simp [jsValues]; exact Or.inr (by simpa [jsValues] using h))
    · rw [jsSet, if_neg hk] at h
      rcases List.mem_cons.mp h with h | h
      · exact Or.inr (by simp [jsValues, h])
      · rcases ih h with h' | h'
        · exact Or.inl h'
        · exact Or.inr (by simp [jsValues]; exact Or.inr (by simpa [jsValues] using h'))

theorem mem_values_delete {α : Type} (m : JMap α) (k : String) (a : α)
    (h : a ∈ jsValues (jsDelete m k)) : a ∈ jsValues m := by
  simp only [jsValues, jsDelete, List.mem_map] at h ⊢
  rcases h with ⟨p, hp, rfl⟩
  exact ⟨p, List.mem_of_mem_filter hp, rfl⟩

theorem jsGet_mem_values {α : Type} (m : JMap α) (k : String) (v : α)
    (h : jsGet m k = some v) : v ∈ jsValues m := by
  induction m with
  | nil => simp [jsGet] at h
  | cons p r ih =>
    by_cases hk : p.1 = k
    · rw [jsGet, if_pos hk] at h
      rcases h with ⟨rfl⟩
      simp [jsValues]
    · rw [jsGet, if_neg hk] at h
      simp only [jsValues, List.map_cons, List.mem_cons]
      exact Or.inr (by simpa [jsValues] using ih h)

/-- Stable insertion of an element into a list already sorted by `le`:
the element is placed after every existing element that compares
less-or-equal to it.  Together with `sortBy` this reproduces the output
of JavaScript's stable `Array.prototype.sort` for a consistent
comparator `c`, taking `le a b` to mean `c(a, b) <= 0`. -/
def insertSorted {α : Type} (le : α → α → Bool) (a : α) : List α → List α
  | [] => [a]
  | b :: r => if le b a then b :: insertSorted le a r else a :: b :: r

/-- Stable sort by repeated insertion, processing elements in their
original order so that ties keep their relative order. -/
def sortBy {α : Type} (le : α → α → Bool) (l : List α) : List α :=
  l.foldl (fun acc a => insertSorted le a acc) []

theorem mem_insertSorted {α : Type} (le : α → α → Bool) (a x : α) (l : List α)
    (h : x ∈ insertSorted le a l) : x = a ∨ x ∈ l := by
  induction l with
  | nil => simpa [insertSorted] using h
  | cons b r ih =>
    by_cases hb : le b a = true
    · rw [insertSorted, if_pos hb] at h
      rcases List.mem_cons.mp h with h | h
      · exact Or.inr (by simp [h])
      · rcases ih h with h' | h'
        · exact Or.inl h'
        · exact Or.inr (by simp [h'])
    · rw [insertSorted, if_neg hb] at h
      rcases List.mem_cons.mp h with h | h
      · exact Or.inl h
      · exact Or.inr h

theorem pairwise_insertSorted {α : Type} (le : α → α → Bool) (a : α) (l : List α)
    (htrans : ∀ x y z, le x y = true → le y z = true → le x z = true)
    (htotal : ∀ x y, le x y = true ∨ le y x = true)
    (hl : l.Pairwise (fun x y => le x y = true)) :
    (insertSorted le a l).Pairwise (fun x y => le x y = true) := by
  induction l with
  | nil => simp [insertSorted]
  | cons b r ih =>
    rcases List.pairwise_cons.mp hl with ⟨hb, hr⟩
    by_cases hba : le b a = true
    · rw [insertSorted, if_pos hba]
      refine List.pairwise_cons.mpr ⟨?_, ih hr⟩
      intro x hx
      rcases mem_insertSorted le a x r hx with rfl | hx'
      · exact hba
      · exact hb x hx'
    · rw [insertSorted, if_neg hba]
      have hab : le a b = true := by
        rcases htotal a b with h | h
        · exact h
        · exact absurd h hba
      refine List.pairwise_cons.mpr ⟨?_, hl⟩
      intro x hx
      rcases List.mem_cons.mp hx with rfl | hx'
      · exact hab
      · exact htrans a b x hab (hb x hx')

theorem pairwise_sortBy {α : Type} (le : α → α → Bool) (l : List α)
    (htrans : ∀ x y z, le x y = true → le y z = true → le x z = true)
    (htotal : ∀ x y, le x y = true ∨ le y x = true) :
    (sortBy le l).Pairwise (fun x y => le x y = true) := by
  have key : ∀ (l : List α) (acc : List α),
      acc.Pairwise (fun x y => le x y = true) →
      (l.foldl (fun acc a => insertSorted le a acc) acc).Pairwise (fun x y => le x y = true) := by
    intro l
    induction l with
    | nil => intro acc hacc; simpa using hacc
    | cons a r ih =>
      intro acc hacc
      exact ih (insertSorted le a acc) (pairwise_insertSorted le a acc htrans htotal hacc)
  exact key l [] (by simp)

theorem mem_sortBy {α : Type} (le : α → α → Bool) (l : List α) (x : α)
    (h : x ∈ sortBy le l) : x ∈ l := by
  have key : ∀ (l acc : List α), x ∈ l.foldl (fun acc a => insertSorted le a acc) acc →
      x ∈ l ∨ x ∈ acc := by
    intro l
    induction l with
    | nil => intro acc h; exact Or.inr (by simpa using h)
    | cons a r ih =>
      intro acc h
      rcases ih (insertSorted le a acc) h with h' | h'
      · exact Or.inl (by simp [h'])
      · rcases mem_insertSorted le a x acc h' with rfl | h''
        · exact Or.inl (by simp)
        · exact Or.inr h''
  rcases key l [] h with h' | h'
  · exact h'
  · simp at h'

/-- One-based rank assignment: pairs every element of a ranking with its
1-based position, mirroring `allResults.map((r, i) => ... rank: i + 1)`. -/
def withRanks {α : Type} : List α → ℕ → List (α × ℕ)
  | [], _ => []
  | a :: r, k => (a, k) :: withRanks r (k + 1)

theorem withRanks_rank_lower {α : Type} (l : List α) (k : ℕ) (p : α × ℕ)
    (h : p ∈ withRanks l k) : k ≤ p.2 := by
  induction l generalizing k with
  | nil => simp [withRanks] at h
  | cons a r ih =>
    rcases List.mem_cons.mp h with rfl | h'
    · exact le_refl _
    · exact le_trans (Nat.le_succ k) (ih (k + 1) h')

theorem withRanks_mem_fst {α : Type} (l : List α) (k : ℕ) (p : α × ℕ)
    (h : p ∈ withRanks l k) : p.1 ∈ l := by
  induction l generalizing k with
  | nil => simp [withRanks] at h
  | cons a r ih =>
    rcases List.mem_cons.mp h with rfl | h'
    · simp
    · exact List.mem_cons.mpr (Or.inr (ih (k + 1) h'))

theorem withRanks_rank_inj {α : Type} (l : List α) (k : ℕ) (p q : α × ℕ)
    (hp : p ∈ withRanks l k) (hq : q ∈ withRanks l k) (h : p.2 = q.2) : p = q := by
  induction l generalizing k with
  | nil => simp [withRanks] at hp
  | cons a r ih =>
    rcases List.mem_cons.mp hp with rfl | hp'
    · rcases List.mem_cons.mp hq with rfl | hq'
      · rfl
      · exact absurd (h ▸ withRanks_rank_lower r (k + 1) q hq') (by simp)
    · rcases List.mem_cons.mp hq with rfl | hq'
      · exact absurd (h ▸ withRanks_rank_lower r (k + 1) p hp') (by simp)
      · exact ih (k + 1) hp' hq'

theorem withRanks_pairwise {α : Type} (R : α → α → Prop) (l : List α) (k : ℕ)
    (hl : l.Pairwise R) (p q : α × ℕ) (hp : p ∈ withRanks l k)
    (hq : q ∈ withRanks l k) (hlt : p.2 < q.2) : R p.1 q.1 := by
  induction l generalizing k with
  | nil => simp [withRanks] at hp
  | cons a r ih =>
    rcases List.pairwise_cons.mp hl with ⟨ha, hr⟩
    rcases List.mem_cons.mp hp with rfl | hp'
    · rcases List.mem_cons.mp hq with rfl | hq'
      · exact absurd hlt (lt_irrefl _)
      · exact ha q.1 (withRanks_mem_fst r (k + 1) q hq')
    · rcases List.mem_cons.mp hq with rfl | hq'
      · exact absurd (lt_of_le_of_lt (withRanks_rank_lower r (k + 1) p hp') hlt) (by simp)
      · exact ih (k + 1) hr hp' hq'

/-- Position vector `[number, number, number]`. -/
abbrev Vec3 : Type := Int × Int × Int

/-- Quaternion `[number, number, number, number]`. -/
abbrev Vec4 : Type := Int × Int × Int × Int

/-- Lobby game mode (`mode: 'race' | 'battle'`). -/
inductive GameMode where
  | race : GameMode
  | battle : GameMode
deriving DecidableEq

/-- Battle variant (`battleType?: 'deathmatch' | 'ctf'`). -/
inductive BattleType where
  | deathmatch : BattleType
  | ctf : BattleType
deriving DecidableEq

/-- Pickup kind (`'health' | 'ammo' | 'powerup'`). -/
inductive PickupType where
  | health : PickupType
  | ammo : PickupType
  | powerup : PickupType
deriving DecidableEq

/-- Team (`'red' | 'blue'`). -/
inductive Team where
  | red : Team
  | blue : Team
deriving DecidableEq

/-- The server's `PlayerState` interface. -/
structure PlayerState where
  id : String
  name : String
  position : Vec3
  rotation : Vec4
  inRace : Bool
  raceId : Option String
  raceCheckpoints : Int
  lobbyId : Option String
  lastUpdate : ℕ
  score : Int
  fingerprint : Option String
deriving DecidableEq

/-- The server's `LobbyPlayer` interface. -/
structure LobbyPlayer where
  id : String
  name : String
  isHost : Bool
  ready : Bool
deriving DecidableEq

/-- The server's `Lobby` interface.  `countdown : none` models the
JavaScript `null` ("waiting"). -/
structure Lobby where
  id : String
  hostId : String
  hostName : String
  players : JMap LobbyPlayer
  portalPosition : Vec3
  createdAt : ℕ
  countdown : Option Int
  raceStarted : Bool
  mode : GameMode
  battleType : Option BattleType
deriving DecidableEq

/-- The server's `BattlePlayerState` interface. -/
structure BattlePlayerState where
  id : String
  name : String
  position : Vec3
  rotation : Vec4
  hp : Int
  maxHp : Int
  isDead : Bool
  team : Option Team
  ammo : Int
  killCount : Int
  deathCount : Int
  lastRespawn : ℕ
deriving DecidableEq

/-- A battle pickup record (`{ type, position, active }`). -/
structure Pickup where
  type : PickupType
  position : Vec3
  active : Bool
deriving DecidableEq

/-- The CTF flag record (`{ position, carrierId, homeBase }`). -/
structure BattleFlag where
  position : Vec3
  carrierId : Option String
  homeBaseRed : Vec3
  homeBaseBlue : Vec3
deriving DecidableEq

/-- The server's `BattleSession` interface. -/
structure BattleSession where
  id : String
  players : JMap BattlePlayerState
  mode : BattleType
  startTime : ℕ
  isActive : Bool
  projectiles : List String
  pickups : JMap Pickup
  scores : JMap Int
  flag : Option BattleFlag
deriving DecidableEq

/-- The server's `RaceParticipantResult` interface (one history entry). -/
structure RaceParticipantResult where
  id : String
  name : String
  checkpoints : Int
  finished : Bool
  active : Bool
  lastCheckpointTime : Option ℕ
  fingerprint : Option String
deriving DecidableEq

/-- The server's `RaceSession` interface; `players` is the active
socket-id set (a JavaScript `Set`, insertion ordered). -/
structure RaceSession where
  id : String
  players : List String
  history : JMap RaceParticipantResult
  startTime : ℕ
  ringsSeed : Int
  isActive : Bool
deriving DecidableEq

/-- One entry of the `finalStandings` arrays built by the ranking code. -/
structure Standing where
  id : String
  name : String
  checkpoints : Int
  rank : ℕ
deriving DecidableEq

/-- One entry of the portal advertisements built by `broadcastPortals`. -/
structure Portal where
  lobbyId : String
  hostName : String
  position : Vec3
  playerCount : ℕ
deriving DecidableEq

/-- The whole mutable server state: the five module-level maps. -/
structure ServerState where
  players : JMap PlayerState
  lobbies : JMap Lobby
  races : JMap RaceSession
  battles : JMap BattleSession
  globalScores : JMap Int
deriving DecidableEq

/-- Server state at process start: all maps empty. -/
def startState : ServerState :=
  { players := [], lobbies := [], races := [], battles := [], globalScores := [] }

/-- Outbound events (`io.emit` / `socket.emit` / room broadcasts),
recorded so that "silently ignored" handlers can be proved to emit
nothing. -/
inductive Emit where
  | welcome (sid : String)
  | playerJoined (sid : String)
  | playerMoved (sid : String) (position : Vec3) (rotation : Vec4)
  | playerLeft (sid : String)
  | portalsUpdate (portals : List Portal)
  | lobbyCreated (lobbyId : String) (players : List LobbyPlayer) (position : Vec3)
  | lobbyError (sid message : String)
  | lobbyJoined (sid lobbyId : String)
  | lobbyPlayerJoined (lobbyId sid : String)
  | lobbyPlayerReady (lobbyId sid : String) (ready : Bool)
  | lobbyPlayerLeft (lobbyId sid : String)
  | lobbyNewHost (lobbyId hostId : String)
  | lobbyRemoved (lobbyId : String)
  | lobbyCountdown (room : Option String) (seconds : Int)
  | raceStart (raceId : String) (seed : Int) (startPosition : Vec3)
  | raceUpdate (raceId sid : String) (checkpoints : Int)
  | racePlayerLeft (raceId sid : String)
  | raceEnded (target : String) (results : List Standing)
  | scoreUpdate (sid : String) (score : Int)
  | battleStart (battleId : String)
  | battleProjectile (battleId projectileId ownerId : String) (position velocity : Vec3) (shotType : String)
  | battleAmmo (sid : String) (ammo : Int)
  | battleDamage (battleId targetId : String) (hp damage : Int) (shooterId : String)
  | battleKill (battleId victimId killerId : String)
  | battleFlagUpdate (battleId : String) (flag : BattleFlag)
  | battleRespawned (battleId sid : String) (position : Vec3) (hp : Int) (ammo : Int)
  | battlePickupTaken (battleId pickupId sid : String) (ptype : PickupType)
  | battlePickupRespawn (battleId pickupId : String)
  | battlePowerup (sid effect : String)
  | battleScoreUpdate (battleId : String) (scores : JMap Int)
  | battlePlayerLeft (battleId sid : String)
deriving DecidableEq

/-- The `a.lastCheckpointTime || 0` coercion used by both comparators. -/
def timeOf (e : RaceParticipantResult) : ℕ :=
  e.lastCheckpointTime.getD 0

/-- The `race:leave` ranking comparator of the server, as a
less-or-equal test (`comparator(a, b) <= 0`): checkpoints descending,
then last-checkpoint time ascending.  It never examines `finished`. -/
def leaveLe (a b : RaceParticipantResult) : Bool :=
  if a.checkpoints = b.checkpoints then decide (timeOf a ≤ timeOf b)
  else decide (b.checkpoints < a.checkpoints)

/-- The `race:win` ranking comparator of the server, as a less-or-equal
test: finished entries first, then checkpoints descending, then
last-checkpoint time ascending (the two tail keys coincide with the
`race:leave` comparator). -/
def winLe (a b : RaceParticipantResult) : Bool :=
  match a.finished, b.finished with
  | true, false => true
  | false, true => false
  | _, _ => leaveLe a b

theorem leaveLe_trans (a b c : RaceParticipantResult)
    (h1 : leaveLe a b = true) (h2 : leaveLe b c = true) : leaveLe a c = true := by
  unfold leaveLe at h1 h2 ⊢
  by_cases hab : a.checkpoints = b.checkpoints
  · by_cases hbc : b.checkpoints = c.checkpoints
    · rw [if_pos hab] at h1
      rw [if_pos hbc] at h2
      rw [if_pos (hab.trans hbc)]
      simp only [decide_eq_true_eq] at h1 h2 ⊢
      exact le_trans h1 h2
    · rw [if_neg hbc] at h2
      simp only [decide_eq_true_eq] at h2
      rw [if_neg (by rw [hab]; exact fun h => hbc h)]
      simp only [decide_eq_true_eq]
      rw [hab]
      exact h2
  · by_cases hbc : b.checkpoints = c.checkpoints
    · rw [if_neg hab] at h1
      simp only [decide_eq_true_eq] at h1
      rw [if_neg (by rw [← hbc]; exact hab)]
      simp only [decide_eq_true_eq]
      rw [← hbc]
      exact h1
    · rw [if_neg hab] at h1
      rw [if_neg hbc] at h2
      simp only [decide_eq_true_eq] at h1 h2
      have hlt : c.checkpoints < a.checkpoints := lt_trans h2 h1
      rw [if_neg (fun h => absurd (h ▸ hlt) (lt_irrefl _))]
      simp only [decide_eq_true_eq]
      exact hlt

theorem leaveLe_total (a b : RaceParticipantResult) :
    leaveLe a b = true ∨ leaveLe b a = true := by
  unfold leaveLe
  by_cases hab : a.checkpoints = b.checkpoints
  · rw [if_pos hab, if_pos hab.symm]
    simp only [decide_eq_true_eq]
    exact le_total (timeOf a) (timeOf b)
  · rw [if_neg hab, if_neg (fun h => hab h.symm)]
    simp only [decide_eq_true_eq]
    exact (lt_or_gt_of_ne (fun h => hab h.symm)).imp id id

theorem winLe_eq_of_eq (a b : RaceParticipantResult) (h : a.finished = b.finished) :
    winLe a b = leaveLe a b := by
  unfold winLe
  cases hb : b.finished <;> rw [h, hb]

theorem winLe_fin_unfin (a b : RaceParticipantResult)
    (ha : a.finished = true) (hb : b.finished = false) : winLe a b = true := by
  unfold winLe
  rw [ha, hb]

theorem winLe_unfin_fin (a b : RaceParticipantResult)
    (ha : a.finished = false) (hb : b.finished = true) : winLe a b = false := by
  unfold winLe
  rw [ha, hb]

theorem winLe_trans (a b c : RaceParticipantResult)
    (h1 : winLe a b = true) (h2 : winLe b c = true) : winLe a c = true := by
  cases ha : a.finished <;> cases hc : c.finished
  · cases hb : b.finished
    · rw [winLe_eq_of_eq a b (ha.trans hb.symm)] at h1
      rw [winLe_eq_of_eq b c (hb.trans hc.symm)] at h2
      rw [winLe_eq_of_eq a c (ha.trans hc.symm)]
      exact leaveLe_trans a b c h1 h2
    · rw [winLe_unfin_fin a b ha hb] at h1
      exact Bool.noConfusion h1
  · cases hb : b.finished
    · rw [winLe_unfin_fin b c hb hc] at h2
      exact Bool.noConfusion h2
    · rw [winLe_unfin_fin a b ha hb] at h1
      exact Bool.noConfusion h1
  · exact winLe_fin_unfin a c ha hc
  · cases hb : b.finished
    · rw [winLe_unfin_fin b c hb hc] at h2
      exact Bool.noConfusion h2
    · rw [winLe_eq_of_eq a b (ha.trans hb.symm)] at h1
      rw [winLe_eq_of_eq b c (hb.trans hc.symm)] at h2
      rw [winLe_eq_of_eq a c (ha.trans hc.symm)]
      exact leaveLe_trans a b c h1 h2

theorem winLe_total (a b : RaceParticipantResult) :
    winLe a b = true ∨ winLe b a = true := by
  cases ha : a.finished <;> cases hb : b.finished
  · rw [winLe_eq_of_eq a b (ha.trans hb.symm), winLe_eq_of_eq b a (hb.trans ha.symm)]
    exact leaveLe_total a b
  · exact Or.inr (winLe_fin_unfin b a hb ha)
  · exact Or.inl (winLe_fin_unfin a b ha hb)
  · rw [winLe_eq_of_eq a b (ha.trans hb.symm), winLe_eq_of_eq b a (hb.trans ha.symm)]
    exact leaveLe_total a b

theorem winLe_finished_first (a b : RaceParticipantResult)
    (h : winLe a b = true) (hb : b.finished = true) : a.finished = true := by
  cases ha : a.finished
  · rw [winLe_unfin_fin a b ha hb] at h
    exact Bool.noConfusion h
  · rfl

/-- Model of JavaScript `Set.prototype.add` on an insertion-ordered set. -/
def setAdd (l : List String) (x : String) : List String :=
  if x ∈ l then l else l ++ [x]

/-- Mirror of `getLobbyPlayers` (lines 223-225). -/
def getLobbyPlayers (lobby : Lobby) : List LobbyPlayer :=
  jsValues lobby.players

/-- Portal record of one lobby, as built by `broadcastPortals`. -/
def portalOf (l : Lobby) : Portal :=
  { lobbyId := l.id
    hostName := l.hostName
    position := l.portalPosition
    playerCount := (jsValues l.players).length }

/-- The portal list computed by `broadcastPortals` (lines 211-221):
lobbies whose game has not started, in map order. -/
def portalsOf (lobbies : JMap Lobby) : List Portal :=
  ((jsValues lobbies).filter (fun l => !l.raceStarted)).map portalOf

/-- The `if (lobby) { ... }` block shared by `handlePlayerLeave`
(lines 161-182) and the `lobby:leave` handler (lines 608-630): remove
the member, migrate the host to the first remaining member in insertion
order or delete the empty lobby, re-broadcast portals. -/
def removeFromLobby (s : ServerState) (sid lid : String) : ServerState × List Emit :=
  match jsGet s.lobbies lid with
  | none => (s, [])
  | some lobby =>
    let players1 := jsDelete lobby.players sid
    if lobby.hostId = sid then
      match jsValues players1 with
      | [] =>
        let s1 := { s with lobbies := jsDelete s.lobbies lid }
        (s1, [Emit.lobbyPlayerLeft lid sid, Emit.lobbyRemoved lid,
              Emit.portalsUpdate (portalsOf s1.lobbies)])
      | newHost :: _ =>
        let players2 := jsSet players1 newHost.id { newHost with isHost := true }
        let lobby1 := { lobby with players := players2, hostId := newHost.id, hostName := newHost.name }
        let s1 := { s with lobbies := jsSet s.lobbies lid lobby1 }
        (s1, [Emit.lobbyPlayerLeft lid sid, Emit.lobbyNewHost lid newHost.id,
              Emit.portalsUpdate (portalsOf s1.lobbies)])
    else
      let lobby1 := { lobby with players := players1 }
      let s1 := { s with lobbies := jsSet s.lobbies lid lobby1 }
      (s1, [Emit.lobbyPlayerLeft lid sid, Emit.portalsUpdate (portalsOf s1.lobbies)])

/-- The race/battle cascade of `handlePlayerLeave` (lines 185-204):
drop the player from the active race set, or from the battle (deleting
an emptied battle). -/
def removeFromGame (s : ServerState) (sid : String) (rid : String) : ServerState × List Emit :=
  match jsGet s.races rid with
  | some race =>
    let race1 := { race with players := race.players.erase sid }
    ({ s with races := jsSet s.races rid race1 }, [Emit.racePlayerLeft rid sid])
  | none =>
    match jsGet s.battles rid with
    | none => (s, [])
    | some battle =>
      let battle1 := { battle with players := jsDelete battle.players sid }
      if (jsValues battle1.players).isEmpty then
        ({ s with battles := jsDelete s.battles rid }, [Emit.battlePlayerLeft rid sid])
      else
        ({ s with battles := jsSet s.battles rid battle1 }, [Emit.battlePlayerLeft rid sid])

/-- Mirror of `handlePlayerLeave` (lines 155-209): lobby cascade, then
race/battle cascade, then removal from the player registry. -/
def handlePlayerLeave (s : ServerState) (sid : String) : ServerState × List Emit :=
  match jsGet s.players sid with
  | none => (s, [])
  | some player =>
    let r1 := match player.lobbyId with
      | none => (s, [])
      | some lid => removeFromLobby s sid lid
    let r2 := match player.raceId with
      | none => (r1.1, [])
      | some rid => removeFromGame r1.1 sid rid
    ({ r2.1 with players := jsDelete r2.1.players sid },
     r1.2 ++ r2.2 ++ [Emit.playerLeft sid])

/-- The fresh `PlayerState` built on connection (lines 238-250). -/
def freshPlayer (sid pname fp : String) (savedScore : Int) (now : ℕ) : PlayerState :=
  { id := sid
    name := pname
    position := (0, 350, 0)
    rotation := (0, 0, 0, 1)
    inRace := false
    raceId := none
    raceCheckpoints := 0
    lobbyId := none
    lastUpdate := now
    score := savedScore
    fingerprint := some fp }

/-- Mirror of the `connection` handler state changes (lines 227-271):
register a player with the spawn transform and the ledger score for the
supplied fingerprint. -/
def connect (s : ServerState) (sid pname fp : String) (now : ℕ) : ServerState × List Emit :=
  let savedScore := jsGetD s.globalScores fp 0
  ({ s with players := jsSet s.players sid (freshPlayer sid pname fp savedScore now) },
   [Emit.welcome sid, Emit.playerJoined sid])

/-- Mirror of the `player:update` handler (lines 274-290). -/
def playerUpdate (s : ServerState) (sid : String) (position : Vec3) (rotation : Vec4)
    (now : ℕ) : ServerState × List Emit :=
  match jsGet s.players sid with
  | none => (s, [])
  | some player =>
    let player1 := { player with position := position, rotation := rotation, lastUpdate := now }
    ({ s with players := jsSet s.players sid player1 },
     [Emit.playerMoved sid position rotation])

/-- The fresh `Lobby` built by `lobby:create` (lines 299-319), with its
host already inserted as a ready member. -/
def freshLobby (sid hostName newLobbyId : String) (position : Vec3)
    (mode : Option GameMode) (battleType : Option BattleType) (now : ℕ) : Lobby :=
  { id := newLobbyId
    hostId := sid
    hostName := hostName
    players := jsSet [] sid { id := sid, name := hostName, isHost := true, ready := true }
    portalPosition := position
    createdAt := now
    countdown := none
    raceStarted := false
    mode := mode.getD GameMode.race
    battleType := battleType }

/-- Mirror of the `lobby:create` handler (lines 295-336).  The freshly
generated lobby id is passed in for `generateId()`. -/
def lobbyCreate (s : ServerState) (sid : String) (position : Vec3)
    (mode : Option GameMode) (battleType : Option BattleType)
    (newLobbyId : String) (now : ℕ) : ServerState × List Emit :=
  match jsGet s.players sid with
  | none => (s, [])
  | some player =>
    match player.lobbyId with
    | some _ => (s, [])
    | none =>
      let lobby := freshLobby sid player.name newLobbyId position mode battleType now
      let player1 := { player with lobbyId := some newLobbyId }
      let s1 := { s with lobbies := jsSet s.lobbies newLobbyId lobby,
                         players := jsSet s.players sid player1 }
      (s1, [Emit.lobbyCreated newLobbyId (getLobbyPlayers lobby) position,
            Emit.portalsUpdate (portalsOf s1.lobbies)])

/-- Mirror of the `lobby:join` handler (lines 339-377). -/
def lobbyJoin (s : ServerState) (sid lobbyId : String) : ServerState × List Emit :=
  match jsGet s.players sid with
  | none => (s, [])
  | some player =>
    match player.lobbyId with
    | some _ => (s, [])
    | none =>
      match jsGet s.lobbies lobbyId with
      | none => (s, [Emit.lobbyError sid "Lobby not found or race already started"])
      | some lobby =>
        if lobby.raceStarted then
          (s, [Emit.lobbyError sid "Lobby not found or race already started"])
        else
          let member : LobbyPlayer := { id := sid, name := player.name, isHost := false, ready := false }
          let lobby1 := { lobby with players := jsSet lobby.players sid member }
          let player1 := { player with lobbyId := some lobbyId }
          let s1 := { s with lobbies := jsSet s.lobbies lobbyId lobby1,
                             players := jsSet s.players sid player1 }
          (s1, [Emit.lobbyJoined sid lobbyId, Emit.lobbyPlayerJoined lobbyId sid,
                Emit.portalsUpdate (portalsOf s1.lobbies)])

/-- Mirror of the `lobby:ready` handler (lines 380-395). -/
def lobbyReady (s : ServerState) (sid : String) (ready : Bool) : ServerState × List Emit :=
  match jsGet s.players sid with
  | none => (s, [])
  | some player =>
    match player.lobbyId with
    | none => (s, [])
    | some lid =>
      match jsGet s.lobbies lid with
      | none => (s, [])
      | some lobby =>
        match jsGet lobby.players sid with
        | none => (s, [])
        | some lobbyPlayer =>
          let lobby1 := { lobby with players := jsSet lobby.players sid { lobbyPlayer with ready := ready } }
          ({ s with lobbies := jsSet s.lobbies lid lobby1 },
           [Emit.lobbyPlayerReady lid sid ready])

/-- Mirror of the synchronous part of the `lobby:start` handler
(lines 398-407): only the host may start; the countdown is set to 3 and
broadcast.  The interval's later firings are modelled by
`countdownTick`. -/
def lobbyStart (s : ServerState) (sid : String) : ServerState × List Emit :=
  match jsGet s.players sid with
  | none => (s, [])
  | some player =>
    match player.lobbyId with
    | none => (s, [])
    | some lid =>
      match jsGet s.lobbies lid with
      | none => (s, [])
      | some lobby =>
        if lobby.hostId = sid then
          let lobby1 := { lobby with countdown := some 3 }
          ({ s with lobbies := jsSet s.lobbies lid lobby1 },
           [Emit.lobbyCountdown (some lid) 3])
        else (s, [])

/-- Mirror of the `lobby:leave` handler (lines 603-633): the lobby
block, then `player.lobbyId = null` unconditionally. -/
def lobbyLeave (s : ServerState) (sid : String) : ServerState × List Emit :=
  match jsGet s.players sid with
  | none => (s, [])
  | some player =>
    match player.lobbyId with
    | none => (s, [])
    | some lid =>
      let r1 := removeFromLobby s sid lid
      let s1 := r1.1
      match jsGet s1.players sid with
      | none => (s1, r1.2)
      | some p2 =>
        let p3 := { p2 with lobbyId := none }
        ({ s1 with players := jsSet s1.players sid p3 }, r1.2)

/-- The history entry created for a lobby member at race start
(lines 453-461). -/
def raceEntryOf (pid : String) (p : PlayerState) (now : ℕ) : RaceParticipantResult :=
  { id := pid
    name := p.name
    checkpoints := 0
    finished := false
    active := true
    lastCheckpointTime := some now
    fingerprint := p.fingerprint }

/-- One step of the member-migration loop at race start (lines 443-469):
flag the player as racing, add them to the active set and the history. -/
def moveMemberToRace (raceId : String) (now : ℕ)
    (acc : JMap PlayerState × RaceSession) (entry : String × LobbyPlayer) :
    JMap PlayerState × RaceSession :=
  match jsGet acc.1 entry.1 with
  | none => acc
  | some p =>
    let p1 := { p with inRace := true, raceId := some raceId, raceCheckpoints := 0, lobbyId := none }
    let race1 := { acc.2 with players := setAdd acc.2.players entry.1,
                              history := jsSet acc.2.history entry.1 (raceEntryOf entry.1 p now) }
    (jsSet acc.1 entry.1 p1, race1)

/-- Race-session creation at countdown zero (lines 428-494): build the
session, migrate every lobby member, register the session and emit the
race start (start position is the portal plus 100 on the z axis). -/
def startRace (s : ServerState) (lobby : Lobby) (seed : Int) (now : ℕ) :
    ServerState × List Emit :=
  let raceId := lobby.id
  let race0 : RaceSession :=
    { id := raceId, players := [], history := [], startTime := now, ringsSeed := seed, isActive := true }
  let moved := lobby.players.foldl (moveMemberToRace raceId now) (s.players, race0)
  let s1 := { s with players := moved.1, races := jsSet s.races raceId moved.2 }
  let startPosition : Vec3 :=
    (lobby.portalPosition.1, lobby.portalPosition.2.1, lobby.portalPosition.2.2 + 100)
  (s1, [Emit.raceStart raceId seed startPosition, Emit.portalsUpdate (portalsOf s1.lobbies)])

/-- The combat record created for a lobby member at battle start
(lines 560-573). -/
def battlePlayerOf (pid : String) (p : PlayerState) (team : Option Team) (now : ℕ) :
    BattlePlayerState :=
  { id := pid
    name := p.name
    position := p.position
    rotation := p.rotation
    hp := 100
    maxHp := 100
    isDead := false
    team := team
    ammo := 20
    killCount := 0
    deathCount := 0
    lastRespawn := now }

/-- One step of the member-migration loop at battle start
(lines 549-585), carrying the alternating `teamToggle`. -/
def moveMemberToBattle (battleId : String) (mode : BattleType) (now : ℕ)
    (acc : JMap PlayerState × BattleSession × Bool) (entry : String × LobbyPlayer) :
    JMap PlayerState × BattleSession × Bool :=
  match jsGet acc.1 entry.1 with
  | none => acc
  | some p =>
    let teamToggle := acc.2.2
    let team : Option Team :=
      if mode = BattleType.ctf then some (if teamToggle then Team.red else Team.blue) else none
    let battle := acc.2.1
    let players1 := jsSet battle.players entry.1 (battlePlayerOf entry.1 p team now)
    let scores1 := if mode = BattleType.deathmatch then jsSet battle.scores entry.1 0 else battle.scores
    let battle1 := { battle with players := players1, scores := scores1 }
    let p1 := { p with inRace := true, raceId := some battleId, lobbyId := none }
    (jsSet acc.1 entry.1 p1, battle1, !teamToggle)

/-- Position of a seeded pickup: the portal position plus the random
offset drawn for it (lines 517-528). -/
def pickupPositionOf (portal : Vec3) (offset : Vec3) : Vec3 :=
  (portal.1 + offset.1, portal.2.1 + offset.2.1, portal.2.2 + offset.2.2)

/-- The CTF flag object created at battle start (lines 534-544). -/
def freshFlag (portal : Vec3) : BattleFlag :=
  { position := (portal.1, portal.2.1 + 50, portal.2.2)
    carrierId := none
    homeBaseRed := (portal.1 - 200, portal.2.1, portal.2.2)
    homeBaseBlue := (portal.1 + 200, portal.2.1, portal.2.2) }

/-- Mirror of `startBattle` (lines 501-600).  The random pickup ids,
types and offsets drawn by the ten `generateId()` / `Math.random()`
calls are passed in as `pickupRolls`. -/
def startBattle (s : ServerState) (lobby : Lobby)
    (pickupRolls : List (String × PickupType × Vec3)) (now : ℕ) :
    ServerState × List Emit :=
  let battleId := lobby.id
  let mode := lobby.battleType.getD BattleType.deathmatch
  let pickups : JMap Pickup := pickupRolls.foldl (fun m r =>
    jsSet m r.1 { type := r.2.1, position := pickupPositionOf lobby.portalPosition r.2.2, active := true }) []
  let flag : Option BattleFlag := if mode = BattleType.ctf then some (freshFlag lobby.portalPosition) else none
  let scores0 : JMap Int := if mode = BattleType.ctf then jsSet (jsSet [] "red" 0) "blue" 0 else []
  let battle0 : BattleSession :=
    { id := battleId, players := [], mode := mode, startTime := now, isActive := true,
      projectiles := [], pickups := pickups, scores := scores0, flag := flag }
  let moved := lobby.players.foldl (moveMemberToBattle battleId mode now) (s.players, battle0, false)
  let s1 := { s with players := moved.1, battles := jsSet s.battles battleId moved.2.1 }
  (s1, [Emit.battleStart battleId, Emit.portalsUpdate (portalsOf s1.lobbies)])

/-- One firing of the `lobby:start` countdown interval (lines 409-498).
The interval closure holds the lobby *object*, not its map key: the
body checks only `!lobby.countdown` and never re-checks
`lobbies.has(...)`.  When the lobby is still registered the closure's
object is the map entry, so the model reads it from the map and writes
it back; when the lobby has been deleted the object survives in the
closure with the fields it had at deletion, supplied here as `cap`,
and map writebacks vanish while the race/battle registration and the
emits still happen. -/
def countdownTick (s : ServerState) (starterId lid : String) (cap : Lobby)
    (seed : Int) (pickupRolls : List (String × PickupType × Vec3)) (now : ℕ) :
    ServerState × List Emit :=
  let lobby := (jsGet s.lobbies lid).getD cap
  match lobby.countdown with
  | none => (s, [])
  | some n =>
    if n = 0 then (s, [])
    else
      let n1 := n - 1
      if n1 ≤ 0 then
        let lobby2 := { lobby with countdown := some n1, raceStarted := true }
        let s1 := if (jsGet s.lobbies lid).isSome
          then { s with lobbies := jsSet s.lobbies lid lobby2 } else s
        if lobby2.mode = GameMode.battle then startBattle s1 lobby2 pickupRolls now
        else startRace s1 lobby2 seed now
      else
        let lobby1 := { lobby with countdown := some n1 }
        let s1 := if (jsGet s.lobbies lid).isSome
          then { s with lobbies := jsSet s.lobbies lid lobby1 } else s
        let room := (jsGet s1.players starterId).bind (fun p => p.lobbyId)
        (s1, [Emit.lobbyCountdown room n1])

/-- Mirror of the `race:checkpoint` handler (lines 638-657): store the
client-reported count on the player record and, when the race and its
history entry exist, on the history entry (with the report time); the
update is broadcast in all cases.  No validation relates the new count
to the old one. -/
def raceCheckpoint (s : ServerState) (sid : String) (checkpoints : Int) (now : ℕ) :
    ServerState × List Emit :=
  match jsGet s.players sid with
  | none => (s, [])
  | some player =>
    match player.raceId with
    | none => (s, [])
    | some rid =>
      let players1 := jsSet s.players sid { player with raceCheckpoints := checkpoints }
      let races1 := match jsGet s.races rid with
        | none => s.races
        | some race =>
          match jsGet race.history sid with
          | none => s.races
          | some participant =>
            let participant1 := { participant with checkpoints := checkpoints, lastCheckpointTime := some now }
            jsSet s.races rid { race with history := jsSet race.history sid participant1 }
      ({ s with players := players1, races := races1 },
       [Emit.raceUpdate rid sid checkpoints])

/-- The history mutation of `race:leave` (lines 668-673): mark the
leaver inactive and overwrite their count with the player record's
`raceCheckpoints`; `finished` is untouched. -/
def markLeft (h : JMap RaceParticipantResult) (sid : String) (cp : Int) :
    JMap RaceParticipantResult :=
  match jsGet h sid with
  | none => h
  | some participant => jsSet h sid { participant with active := false, checkpoints := cp }

/-- The history mutation of `race:win` (lines 763-768): mark the winner
finished with the sentinel checkpoint count 999999. -/
def markWon (h : JMap RaceParticipantResult) (sid : String) : JMap RaceParticipantResult :=
  match jsGet h sid with
  | none => h
  | some participant => jsSet h sid { participant with finished := true, checkpoints := 999999 }

/-- The ranked history of the `race:leave` ranking path (lines 684-702):
the history values sorted by the leave comparator, paired with their
1-based ranks. -/
def leaveRankedEntries (history : JMap RaceParticipantResult) :
    List (RaceParticipantResult × ℕ) :=
  withRanks (sortBy leaveLe (jsValues history)) 1

/-- The ranked history of the `race:win` ranking path (lines 771-788). -/
def winRankedEntries (history : JMap RaceParticipantResult) :
    List (RaceParticipantResult × ℕ) :=
  withRanks (sortBy winLe (jsValues history)) 1

/-- Projection of a ranked history entry to the emitted standing of the
leave path (lines 697-702). -/
def standingOfLeave (pr : RaceParticipantResult × ℕ) : Standing :=
  { id := pr.1.id, name := pr.1.name, checkpoints := pr.1.checkpoints, rank := pr.2 }

/-- Projection of a ranked history entry to the emitted standing of the
win path (lines 783-788), displaying 20 for finished entries. -/
def standingOfWin (pr : RaceParticipantResult × ℕ) : Standing :=
  { id := pr.1.id, name := pr.1.name,
    checkpoints := if pr.1.finished then 20 else pr.1.checkpoints, rank := pr.2 }

/-- The fixed rank-bonus schedule `[100, 50, 25]` of both award loops. -/
def pointsAward (rank : ℕ) : Int :=
  if rank = 1 then 100 else if rank = 2 then 50 else if rank = 3 then 25 else 0

/-- One iteration of the leave-path award loop (lines 704-728): ranks
above 3 get nothing, and a standing is credited only when its player is
still in the `players` map and carries a fingerprint; the ledger and
the mirrored score are updated and the player is notified. -/
def awardLeaveOne (st : ServerState × List Emit) (standing : Standing) :
    ServerState × List Emit :=
  if standing.rank ≤ 3 then
    match jsGet st.1.players standing.id with
    | none => st
    | some p =>
      match p.fingerprint with
      | none => st
      | some fp =>
        let points := pointsAward standing.rank
        let newScore := jsGetD st.1.globalScores fp 0 + points
        let s1 := { st.1 with globalScores := jsSet st.1.globalScores fp newScore,
                              players := jsSet st.1.players standing.id { p with score := newScore } }
        (s1, st.2 ++ [Emit.scoreUpdate standing.id newScore])
  else st

/-- The leave-path `race:ended` notification (lines 734-739): sent
individually and only to standings whose player is still connected. -/
def emitEndedToOnline (s : ServerState) (standings : List Standing) : List Emit :=
  standings.filterMap (fun st =>
    if (jsGet s.players st.id).isSome then some (Emit.raceEnded st.id standings) else none)

/-- Mirror of the `race:leave` handler (lines 660-754): drop the leaver
from the active set, retain their history entry inactive; when the
active set empties, rank the full history, award ranks 1-3 through the
live player records, notify online participants and delete the
session; finally clear the leaver's race membership. -/
def raceLeave (s : ServerState) (sid : String) : ServerState × List Emit :=
  match jsGet s.players sid with
  | none => (s, [])
  | some player =>
    match player.raceId with
    | none => (s, [])
    | some rid =>
      let afterRace : ServerState × List Emit :=
        match jsGet s.races rid with
        | none => (s, [])
        | some race =>
          let players1 := race.players.erase sid
          let history1 := markLeft race.history sid player.raceCheckpoints
          if players1.isEmpty then
            let finalStandings := (leaveRankedEntries history1).map standingOfLeave
            let awarded := finalStandings.foldl awardLeaveOne (s, [Emit.racePlayerLeft rid sid])
            let s2 := awarded.1
            ({ s2 with races := jsDelete s2.races rid },
             awarded.2 ++ emitEndedToOnline s2 finalStandings)
          else
            let race1 := { race with players := players1, history := history1 }
            ({ s with races := jsSet s.races rid race1 }, [Emit.racePlayerLeft rid sid])
      let s1 := afterRace.1
      match jsGet s1.players sid with
      | none => (s1, afterRace.2)
      | some p2 =>
        let p3 := { p2 with inRace := false, raceId := none, raceCheckpoints := 0 }
        ({ s1 with players := jsSet s1.players sid p3 }, afterRace.2)

/-- One iteration of the win-path award loop (lines 798-820): every
standing earns 1 participation point plus the rank bonus for ranks 1-3;
the fingerprint is taken from the *history* entry, so the ledger is
credited even for disconnected participants, and the mirrored score and
notification happen only for still-connected players. -/
def awardWinOne (history : JMap RaceParticipantResult) (st : ServerState × List Emit)
    (standing : Standing) : ServerState × List Emit :=
  let points := 1 + (if standing.rank ≤ 3 then pointsAward standing.rank else 0)
  match (jsGet history standing.id).bind (fun participant => participant.fingerprint) with
  | none => st
  | some fp =>
    let newScore := jsGetD st.1.globalScores fp 0 + points
    let s1 := { st.1 with globalScores := jsSet st.1.globalScores fp newScore }
    match jsGet s1.players standing.id with
    | none => (s1, st.2)
    | some p =>
      ({ s1 with players := jsSet s1.players standing.id { p with score := newScore } },
       st.2 ++ [Emit.scoreUpdate standing.id newScore])

/-- One iteration of the win-path cleanup loop (lines 823-833):
clear an active participant's race membership. -/
def clearRaceMembership (players : JMap PlayerState) (pid : String) : JMap PlayerState :=
  match jsGet players pid with
  | none => players
  | some p =>
    jsSet players pid { p with inRace := false, raceId := none, lobbyId := none, raceCheckpoints := 0 }

/-- Mirror of the `race:win` handler (lines 757-837): mark the caller
finished with the sentinel count, rank the full history with the
finished-first comparator, emit the results to the race room, run the
win award loop over history fingerprints, clear every active
participant's membership and delete the session. -/
def raceWin (s : ServerState) (sid : String) : ServerState × List Emit :=
  match jsGet s.players sid with
  | none => (s, [])
  | some player =>
    match player.raceId with
    | none => (s, [])
    | some rid =>
      match jsGet s.races rid with
      | none => (s, [])
      | some race =>
        let history1 := markWon race.history sid
        let finalStandings := (winRankedEntries history1).map standingOfWin
        let awarded := finalStandings.foldl (awardWinOne history1)
          (s, [Emit.raceEnded rid finalStandings])
        let s1 := awarded.1
        let s2 := { s1 with players := race.players.foldl clearRaceMembership s1.players }
        ({ s2 with races := jsDelete s2.races rid }, awarded.2)

/-- Squared Euclidean distance; the server compares
`Math.sqrt(distSq) < r`, embedded here as `distSq < r ^ 2`. -/
def distSq (a b : Vec3) : Int :=
  (a.1 - b.1) ^ 2 + (a.2.1 - b.2.1) ^ 2 + (a.2.2 - b.2.2) ^ 2

/-- The flag pickup radius literal of `battle:flagPickup` (line 1012). -/
def flagPickupRadius : Int := 20

/-- The steal radius literal of `battle:steal` (line 1041). -/
def flagStealRadius : Int := 15

/-- The goal radius literal of `battle:score` (line 1072). -/
def flagGoalRadius : Int := 20

/-- The score-map key of a team. -/
def teamKey : Team → String
  | Team.red => "red"
  | Team.blue => "blue"

/-- Mirror of the `battle:shoot` handler (lines 841-868): dead shooters
and empty magazines are silently ignored, otherwise ammo is decremented
and the projectile descriptor broadcast. -/
def battleShoot (s : ServerState) (sid : String) (position velocity : Vec3)
    (shotType : String) (projectileId : String) : ServerState × List Emit :=
  match jsGet s.players sid with
  | none => (s, [])
  | some player =>
    match player.raceId with
    | none => (s, [])
    | some bid =>
      match jsGet s.battles bid with
      | none => (s, [])
      | some battle =>
        match jsGet battle.players sid with
        | none => (s, [])
        | some bp =>
          if bp.isDead ∨ bp.ammo ≤ 0 then (s, [])
          else
            let bp1 := { bp with ammo := bp.ammo - 1 }
            let battle1 := { battle with players := jsSet battle.players sid bp1 }
            ({ s with battles := jsSet s.battles bid battle1 },
             [Emit.battleProjectile bid projectileId sid position velocity shotType, Emit.battleAmmo sid bp1.ammo])

/-- Mirror of the `battle:hit` handler (lines 870-919): a dead *target*
is silently ignored (the shooter's own death state is never examined);
hp is clamped at zero; a lethal hit marks the target dead, bumps the
kill/death counters, bumps the shooter's deathmatch score, and drops
the flag at the target's last known position if the target carried
it. -/
def battleHit (s : ServerState) (sid targetId : String) (damage : Int) :
    ServerState × List Emit :=
  match jsGet s.players sid with
  | none => (s, [])
  | some shooter =>
    match shooter.raceId with
    | none => (s, [])
    | some bid =>
      match jsGet s.battles bid with
      | none => (s, [])
      | some battle =>
        match jsGet battle.players targetId with
        | none => (s, [])
        | some target =>
          if target.isDead then (s, [])
          else
            let target1 := { target with hp := max 0 (target.hp - damage) }
            if target1.hp ≤ (0 : Int) then
              let target2 := { target1 with isDead := true, deathCount := target1.deathCount + 1 }
              let bplayers1 := jsSet battle.players targetId target2
              let bplayers2 := match jsGet bplayers1 sid with
                | none => bplayers1
                | some sp => jsSet bplayers1 sid { sp with killCount := sp.killCount + 1 }
              let scores1 :=
                if (jsGet bplayers1 sid).isSome ∧ battle.mode = BattleType.deathmatch
                then jsSet battle.scores sid (jsGetD battle.scores sid 0 + 1)
                else battle.scores
              let flagDrop : Option BattleFlag × List Emit := match battle.flag with
                | none => (none, [])
                | some flag =>
                  if flag.carrierId = some targetId then
                    let flag1 := { flag with carrierId := none, position := target.position }
                    (some flag1, [Emit.battleFlagUpdate bid flag1])
                  else (some flag, [])
              let battle1 := { battle with players := bplayers2, scores := scores1, flag := flagDrop.1 }
              ({ s with battles := jsSet s.battles bid battle1 },
               [Emit.battleDamage bid targetId target1.hp damage sid] ++ flagDrop.2 ++
                 [Emit.battleKill bid targetId sid])
            else
              let battle1 := { battle with players := jsSet battle.players targetId target1 }
              ({ s with battles := jsSet s.battles bid battle1 },
               [Emit.battleDamage bid targetId target1.hp damage sid])

/-- Mirror of the `battle:respawn` handler (lines 921-951): a no-op
unless the caller is dead; resets hp/ammo, stamps the respawn time and
broadcasts a freshly drawn spawn position (which is not stored). -/
def battleRespawn (s : ServerState) (sid : String) (spawnPos : Vec3) (now : ℕ) :
    ServerState × List Emit :=
  match jsGet s.players sid with
  | none => (s, [])
  | some player =>
    match player.raceId with
    | none => (s, [])
    | some bid =>
      match jsGet s.battles bid with
      | none => (s, [])
      | some battle =>
        match jsGet battle.players sid with
        | none => (s, [])
        | some bp =>
          if bp.isDead then
            let bp1 := { bp with isDead := false, hp := bp.maxHp, ammo := 20, lastRespawn := now }
            let battle1 := { battle with players := jsSet battle.players sid bp1 }
            ({ s with battles := jsSet s.battles bid battle1 },
             [Emit.battleRespawned bid sid spawnPos bp1.hp bp1.ammo])
          else (s, [])

/-- Mirror of the `battle:pickup` handler (lines 953-994) up to its
`setTimeout`: an inactive pickup or a dead collector is silently
ignored; otherwise the type effect is applied, the pickup deactivated
and the collection broadcast.  The timer's later firing is modelled by
`pickupRespawnFire`. -/
def battlePickup (s : ServerState) (sid pickupId : String) (effectRoll : Bool) :
    ServerState × List Emit :=
  match jsGet s.players sid with
  | none => (s, [])
  | some player =>
    match player.raceId with
    | none => (s, [])
    | some bid =>
      match jsGet s.battles bid with
      | none => (s, [])
      | some battle =>
        match jsGet battle.pickups pickupId with
        | none => (s, [])
        | some pickup =>
          if pickup.active then
            match jsGet battle.players sid with
            | none => (s, [])
            | some bp =>
              if bp.isDead then (s, [])
              else
                let applied : BattlePlayerState × List Emit := match pickup.type with
                  | PickupType.health => ({ bp with hp := min bp.maxHp (bp.hp + 50) }, [])
                  | PickupType.ammo => ({ bp with ammo := bp.ammo + 10 }, [])
                  | PickupType.powerup =>
                    (bp, [Emit.battlePowerup sid (if effectRoll then "rapidfire" else "speedboost")])
                let battle1 := { battle with
                  players := jsSet battle.players sid applied.1,
                  pickups := jsSet battle.pickups pickupId { pickup with active := false } }
                ({ s with battles := jsSet s.battles bid battle1 },
                 applied.2 ++ [Emit.battlePickupTaken bid pickupId sid pickup.type])
          else (s, [])

/-- One firing of the pickup-respawn `setTimeout` (lines 986-993): the
callback re-validates `battles.has(battle.id)` before reactivating; the
captured pickup object is the (never deleted) entry of that battle's
pickup map, so it is looked up by id here.  After the battle's deletion
the firing changes nothing. -/
def pickupRespawnFire (s : ServerState) (battleId pickupId : String) :
    ServerState × List Emit :=
  match jsGet s.battles battleId with
  | none => (s, [])
  | some battle =>
    match jsGet battle.pickups pickupId with
    | none => (s, [])
    | some pickup =>
      let battle1 := { battle with pickups := jsSet battle.pickups pickupId { pickup with active := true } }
      ({ s with battles := jsSet s.battles battleId battle1 },
       [Emit.battlePickupRespawn battleId pickupId])

/-- Mirror of the `battle:flagPickup` handler (lines 996-1016): only an
uncarried flag within the pickup radius of the caller's last reported
position is taken. -/
def battleFlagPickup (s : ServerState) (sid : String) : ServerState × List Emit :=
  match jsGet s.players sid with
  | none => (s, [])
  | some player =>
    match player.raceId with
    | none => (s, [])
    | some bid =>
      match jsGet s.battles bid with
      | none => (s, [])
      | some battle =>
        match battle.flag with
        | none => (s, [])
        | some flag =>
          match flag.carrierId with
          | some _ => (s, [])
          | none =>
            if distSq player.position flag.position < flagPickupRadius ^ 2 then
              let flag1 := { flag with carrierId := some sid }
              let battle1 := { battle with flag := some flag1 }
              ({ s with battles := jsSet s.battles bid battle1 },
               [Emit.battleFlagUpdate bid flag1])
            else (s, [])

/-- Mirror of the `battle:steal` handler (lines 1018-1048): the target
must be the current carrier and within the steal radius of the caller's
last reported position; then the carrier is reassigned. -/
def battleSteal (s : ServerState) (sid targetId : String) : ServerState × List Emit :=
  match jsGet s.players sid with
  | none => (s, [])
  | some player =>
    match player.raceId with
    | none => (s, [])
    | some bid =>
      match jsGet s.battles bid with
      | none => (s, [])
      | some battle =>
        match battle.flag with
        | none => (s, [])
        | some flag =>
          match flag.carrierId with
          | none => (s, [])
          | some carrierId =>
            if carrierId = targetId then
              match jsGet s.players targetId with
              | none => (s, [])
              | some carrierPlayer =>
                if distSq player.position carrierPlayer.position < flagStealRadius ^ 2 then
                  let flag1 := { flag with carrierId := some sid }
                  let battle1 := { battle with flag := some flag1 }
                  ({ s with battles := jsSet s.battles bid battle1 },
                   [Emit.battleFlagUpdate bid flag1])
                else (s, [])
            else (s, [])

/-- Mirror of the `battle:score` handler (lines 1050-1085): the carrier
scoring within the goal radius of the *opposing* home base bumps the
team score, clears the carrier and resets the flag position to the
fixed default. -/
def battleScore (s : ServerState) (sid : String) : ServerState × List Emit :=
  match jsGet s.players sid with
  | none => (s, [])
  | some player =>
    match player.raceId with
    | none => (s, [])
    | some bid =>
      match jsGet s.battles bid with
      | none => (s, [])
      | some battle =>
        match battle.flag with
        | none => (s, [])
        | some flag =>
          if flag.carrierId = some sid then
            match jsGet battle.players sid with
            | none => (s, [])
            | some bp =>
              match bp.team with
              | none => (s, [])
              | some team =>
                let targetBase := if team = Team.red then flag.homeBaseBlue else flag.homeBaseRed
                if distSq player.position targetBase < flagGoalRadius ^ 2 then
                  let scores1 := jsSet battle.scores (teamKey team) (jsGetD battle.scores (teamKey team) 0 + 1)
                  let flag1 := { flag with carrierId := none, position := ((0 : Int), (350 : Int), (0 : Int)) }
                  let battle1 := { battle with scores := scores1, flag := some flag1 }
                  ({ s with battles := jsSet s.battles bid battle1 },
                   [Emit.battleScoreUpdate bid scores1, Emit.battleFlagUpdate bid flag1])
                else (s, [])
          else (s, [])

/-- One step of the inactive-player sweep loop. -/
def sweepPlayerStep (now : ℕ) (st : ServerState × List Emit) (pid : String) :
    ServerState × List Emit :=
  match jsGet st.1.players pid with
  | none => st
  | some p =>
    if p.lastUpdate + 10000 < now then
      let r := handlePlayerLeave st.1 pid
      (r.1, st.2 ++ r.2)
    else st

/-- One firing of the inactive-player sweep (lines 125-133): every
player quiet for more than 10 seconds is cascaded through
`handlePlayerLeave`. -/
def sweepPlayers (s : ServerState) (now : ℕ) : ServerState × List Emit :=
  (jsKeys s.players).foldl (sweepPlayerStep now) (s, [])

/-- One step of the stale-lobby sweep loop. -/
def sweepLobbyStep (now : ℕ) (st : ServerState × List Emit) (lid : String) :
    ServerState × List Emit :=
  match jsGet st.1.lobbies lid with
  | none => st
  | some lobby =>
    if (jsValues lobby.players).isEmpty ∨ lobby.createdAt + 300000 < now then
      ({ st.1 with lobbies := jsDelete st.1.lobbies lid }, st.2 ++ [Emit.lobbyRemoved lid])
    else st

/-- One firing of the stale-lobby sweep (lines 136-144): empty lobbies
and lobbies older than five minutes are deleted. -/
def sweepLobbies (s : ServerState) (now : ℕ) : ServerState × List Emit :=
  (jsKeys s.lobbies).foldl (sweepLobbyStep now) (s, [])

/-- One step of the empty-race sweep loop. -/
def sweepRaceStep (races : JMap RaceSession) (rid : String) : JMap RaceSession :=
  match jsGet races rid with
  | none => races
  | some race => if race.players.isEmpty then jsDelete races rid else races

/-- One firing of the empty-race sweep (lines 147-153). -/
def sweepRaces (s : ServerState) : ServerState × List Emit :=
  ({ s with races := (jsKeys s.races).foldl sweepRaceStep s.races }, [])

/-- One inbound event of the server, with every nondeterministic input
of the real process (socket ids, generated ids, clock readings, random
rolls, and for `countdownTick` the closure's captured lobby object)
made explicit. -/
inductive Event where
  | connect (sid pname fp : String) (now : ℕ)
  | playerUpdate (sid : String) (position : Vec3) (rotation : Vec4) (now : ℕ)
  | lobbyCreate (sid : String) (position : Vec3) (mode : Option GameMode)
      (battleType : Option BattleType) (newLobbyId : String) (now : ℕ)
  | lobbyJoin (sid lobbyId : String)
  | lobbyReady (sid : String) (ready : Bool)
  | lobbyStart (sid : String)
  | countdownTick (starterId lid : String) (cap : Lobby) (seed : Int)
      (pickupRolls : List (String × PickupType × Vec3)) (now : ℕ)
  | lobbyLeave (sid : String)
  | raceCheckpoint (sid : String) (checkpoints : Int) (now : ℕ)
  | raceLeave (sid : String)
  | raceWin (sid : String)
  | battleShoot (sid : String) (position velocity : Vec3) (shotType projectileId : String)
  | battleHit (sid targetId : String) (damage : Int)
  | battleRespawn (sid : String) (spawnPos : Vec3) (now : ℕ)
  | battlePickup (sid pickupId : String) (effectRoll : Bool)
  | pickupRespawnFire (battleId pickupId : String)
  | battleFlagPickup (sid : String)
  | battleSteal (sid targetId : String)
  | battleScore (sid : String)
  | disconnect (sid : String)
  | sweepPlayers (now : ℕ)
  | sweepLobbies (now : ℕ)
  | sweepRaces

/-- Dispatch of one event to its handler. -/
def applyEvent (s : ServerState) : Event → ServerState × List Emit
  | Event.connect sid pname fp now => connect s sid pname fp now
  | Event.playerUpdate sid position rotation now => playerUpdate s sid position rotation now
  | Event.lobbyCreate sid position mode battleType newLobbyId now =>
      lobbyCreate s sid position mode battleType newLobbyId now
  | Event.lobbyJoin sid lobbyId => lobbyJoin s sid lobbyId
  | Event.lobbyReady sid ready => lobbyReady s sid ready
  | Event.lobbyStart sid => lobbyStart s sid
  | Event.countdownTick starterId lid cap seed pickupRolls now =>
      countdownTick s starterId lid cap seed pickupRolls now
  | Event.lobbyLeave sid => lobbyLeave s sid
  | Event.raceCheckpoint sid checkpoints now => raceCheckpoint s sid checkpoints now
  | Event.raceLeave sid => raceLeave s sid
  | Event.raceWin sid => raceWin s sid
  | Event.battleShoot sid position velocity shotType projectileId =>
      battleShoot s sid position velocity shotType projectileId
  | Event.battleHit sid targetId damage => battleHit s sid targetId damage
  | Event.battleRespawn sid spawnPos now => battleRespawn s sid spawnPos now
  | Event.battlePickup sid pickupId effectRoll => battlePickup s sid pickupId effectRoll
  | Event.pickupRespawnFire battleId pickupId => pickupRespawnFire s battleId pickupId
  | Event.battleFlagPickup sid => battleFlagPickup s sid
  | Event.battleSteal sid targetId => battleSteal s sid targetId
  | Event.battleScore sid => battleScore s sid
  | Event.disconnect sid => handlePlayerLeave s sid
  | Event.sweepPlayers now => sweepPlayers s now
  | Event.sweepLobbies now => sweepLobbies s now
  | Event.sweepRaces => sweepRaces s

/-- State after running a sequence of events from process start. -/
def runEvents (evs : List Event) : ServerState :=
  evs.foldl (fun s ev => (applyEvent s ev).1) startState

/-- A server state is reachable when some event sequence produces it. -/
def Reachable (s : ServerState) : Prop :=
  ∃ evs : List Event, s = runEvents evs

/-- A race history none of whose entries is marked finished. -/
def HistoryUnfinished (h : JMap RaceParticipantResult) : Prop :=
  ∀ e ∈ jsValues h, e.finished = false

/-- Every session of a race map has an all-unfinished history. -/
def RacesMapUnfinished (races : JMap RaceSession) : Prop :=
  ∀ race ∈ jsValues races, HistoryUnfinished race.history

/-- No live race session contains a finished history entry.  The only
assignment of `finished = true` in the server is inside the `race:win`
handler, which deletes its session before returning. -/
def RacesUnfinished (s : ServerState) : Prop :=
  RacesMapUnfinished s.races

theorem races_removeFromLobby (s : ServerState) (sid lid : String) :
    (removeFromLobby s sid lid).1.races = s.races := by
  simp only [removeFromLobby]
  repeat' split
  all_goals rfl

theorem races_lobbyLeave (s : ServerState) (sid : String) :
    (lobbyLeave s sid).1.races = s.races := by
  simp only [lobbyLeave]
  repeat' split
  all_goals simp [races_removeFromLobby]

theorem races_connect (s : ServerState) (sid pname fp : String) (now : ℕ) :
    (connect s sid pname fp now).1.races = s.races := rfl

theorem races_playerUpdate (s : ServerState) (sid : String) (position : Vec3)
    (rotation : Vec4) (now : ℕ) : (playerUpdate s sid position rotation now).1.races = s.races := by
  simp only [playerUpdate]
  repeat' split
  all_goals rfl

theorem races_lobbyCreate (s : ServerState) (sid : String) (position : Vec3)
    (mode : Option GameMode) (battleType : Option BattleType) (newLobbyId : String) (now : ℕ) :
    (lobbyCreate s sid position mode battleType newLobbyId now).1.races = s.races := by
  simp only [lobbyCreate]
  repeat' split
  all_goals rfl

theorem races_lobbyJoin (s : ServerState) (sid lobbyId : String) :
    (lobbyJoin s sid lobbyId).1.races = s.races := by
  simp only [lobbyJoin]
  repeat' split
  all_goals rfl

theorem races_lobbyReady (s : ServerState) (sid : String) (ready : Bool) :
    (lobbyReady s sid ready).1.races = s.races := by
  simp only [lobbyReady]
  repeat' split
  all_goals rfl

theorem races_lobbyStart (s : ServerState) (sid : String) :
    (lobbyStart s sid).1.races = s.races := by
  simp only [lobbyStart]
  repeat' split
  all_goals rfl

theorem races_battleShoot (s : ServerState) (sid : String) (position velocity : Vec3)
    (shotType projectileId : String) :
    (battleShoot s sid position velocity shotType projectileId).1.races = s.races := by
  simp only [battleShoot]
  repeat' split
  all_goals rfl

theorem races_battleHit (s : ServerState) (sid targetId : String) (damage : Int) :
    (battleHit s sid targetId damage).1.races = s.races := by
  simp only [battleHit]
  repeat' split
  all_goals rfl

theorem races_battleRespawn (s : ServerState) (sid : String) (spawnPos : Vec3) (now : ℕ) :
    (battleRespawn s sid spawnPos now).1.races = s.races := by
  simp only [battleRespawn]
  repeat' split
  all_goals rfl

theorem races_battlePickup (s : ServerState) (sid pickupId : String) (effectRoll : Bool) :
    (battlePickup s sid pickupId effectRoll).1.races = s.races := by
  simp only [battlePickup]
  repeat' split
  all_goals rfl

theorem races_pickupRespawnFire (s : ServerState) (battleId pickupId : String) :
    (pickupRespawnFire s battleId pickupId).1.races = s.races := by
  simp only [pickupRespawnFire]
  repeat' split
  all_goals rfl

theorem races_battleFlagPickup (s : ServerState) (sid : String) :
    (battleFlagPickup s sid).1.races = s.races := by
  simp only [battleFlagPickup]
  repeat' split
  all_goals rfl

theorem races_battleSteal (s : ServerState) (sid targetId : String) :
    (battleSteal s sid targetId).1.races = s.races := by
  simp only [battleSteal]
  repeat' split
  all_goals rfl

theorem races_battleScore (s : ServerState) (sid : String) :
    (battleScore s sid).1.races = s.races := by
  simp only [battleScore]
  repeat' split
  all_goals rfl

theorem races_startBattle (s : ServerState) (lobby : Lobby)
    (pickupRolls : List (String × PickupType × Vec3)) (now : ℕ) :
    (startBattle s lobby pickupRolls now).1.races = s.races := rfl

theorem races_sweepLobbyStep (now : ℕ) (st : ServerState × List Emit) (lid : String) :
    (sweepLobbyStep now st lid).1.races = st.1.races := by
  simp only [sweepLobbyStep]
  repeat' split
  all_goals rfl

theorem races_sweepLobbies_aux (now : ℕ) (ks : List String) (st : ServerState × List Emit) :
    (ks.foldl (sweepLobbyStep now) st).1.races = st.1.races := by
  induction ks generalizing st with
  | nil => rfl
  | cons lid r ih =>
    simp only [List.foldl_cons]
    rw [ih (sweepLobbyStep now st lid)]
    exact races_sweepLobbyStep now st lid

theorem races_sweepLobbies (s : ServerState) (now : ℕ) :
    (sweepLobbies s now).1.races = s.races := by
  simp only [sweepLobbies]
  exact races_sweepLobbies_aux now (jsKeys s.lobbies) (s, [])

theorem historyUnfinished_jsSet (h : JMap RaceParticipantResult) (k : String)
    (e : RaceParticipantResult) (hh : HistoryUnfinished h) (he : e.finished = false) :
    HistoryUnfinished (jsSet h k e) := by
  intro x hx
  rcases mem_values_set h k e x hx with rfl | hx'
  · exact he
  · exact hh x hx'

theorem historyUnfinished_markLeft (h : JMap RaceParticipantResult) (sid : String) (cp : Int)
    (hh : HistoryUnfinished h) : HistoryUnfinished (markLeft h sid cp) := by
  unfold markLeft
  cases hget : jsGet h sid with
  | none => exact hh
  | some participant =>
    exact historyUnfinished_jsSet h sid _ hh (hh participant (jsGet_mem_values h sid participant hget))

theorem racesMapUnfinished_jsSet (races : JMap RaceSession) (rid : String) (race : RaceSession)
    (h : RacesMapUnfinished races) (hr : HistoryUnfinished race.history) :
    RacesMapUnfinished (jsSet races rid race) := by
  intro x hx
  rcases mem_values_set races rid race x hx with rfl | hx'
  · exact hr
  · exact h x hx'

theorem racesMapUnfinished_jsDelete (races : JMap RaceSession) (rid : String)
    (h : RacesMapUnfinished races) : RacesMapUnfinished (jsDelete races rid) := by
  intro x hx
  exact h x (mem_values_delete races rid x hx)

theorem racesMapUnfinished_get (races : JMap RaceSession) (rid : String) (race : RaceSession)
    (h : RacesMapUnfinished races) (hget : jsGet races rid = some race) :
    HistoryUnfinished race.history :=
  h race (jsGet_mem_values races rid race hget)

theorem inv_raceCheckpoint (s : ServerState) (sid : String) (cp : Int) (now : ℕ)
    (h : RacesUnfinished s) : RacesUnfinished (raceCheckpoint s sid cp now).1 := by
  unfold raceCheckpoint
  cases hp : jsGet s.players sid with
  | none => exact h
  | some player =>
    dsimp only
    cases hr : player.raceId with
    | none => exact h
    | some rid =>
      dsimp only
      cases hrace : jsGet s.races rid with
      | none => exact h
      | some race =>
        dsimp only
        cases hpart : jsGet race.history sid with
        | none => exact h
        | some participant =>
          dsimp only
          refine racesMapUnfinished_jsSet s.races rid _ h ?_
          refine historyUnfinished_jsSet race.history sid _ (racesMapUnfinished_get s.races rid race h hrace) ?_
          exact racesMapUnfinished_get s.races rid race h hrace participant
            (jsGet_mem_values race.history sid participant hpart)

theorem inv_removeFromGame (s : ServerState) (sid rid : String)
    (h : RacesUnfinished s) : RacesUnfinished (removeFromGame s sid rid).1 := by
  unfold removeFromGame
  cases hrace : jsGet s.races rid with
  | some race =>
    exact racesMapUnfinished_jsSet s.races rid _ h (racesMapUnfinished_get s.races rid race h hrace)
  | none =>
    cases hb : jsGet s.battles rid with
    | none => exact h
    | some battle =>
      by_cases hempty : (jsValues (jsDelete battle.players sid)).isEmpty
      · simp only [hempty]
        exact h
      · simp only [hempty]
        exact h

theorem inv_handlePlayerLeave (s : ServerState) (sid : String)
    (h : RacesUnfinished s) : RacesUnfinished (handlePlayerLeave s sid).1 := by
  unfold handlePlayerLeave
  cases hp : jsGet s.players sid with
  | none => exact h
  | some player =>
    dsimp only
    have h1 : RacesUnfinished (match player.lobbyId with
        | none => (s, ([] : List Emit))
        | some lid => removeFromLobby s sid lid).1 := by
      cases hl : player.lobbyId with
      | none => exact h
      | some lid =>
        have := races_removeFromLobby s sid lid
        unfold RacesUnfinished
        rw [this]
        exact h
    cases hrid : player.raceId with
    | none => exact h1
    | some rid => exact inv_removeFromGame _ sid rid h1

theorem races_awardLeaveOne (st : ServerState × List Emit) (standing : Standing) :
    (awardLeaveOne st standing).1.races = st.1.races := by
  unfold awardLeaveOne
  repeat' split
  all_goals rfl

theorem races_awardLeaveFold (standings : List Standing) (st : ServerState × List Emit) :
    (standings.foldl awardLeaveOne st).1.races = st.1.races := by
  induction standings generalizing st with
  | nil => rfl
  | cons a r ih =>
    simp only [List.foldl_cons]
    rw [ih (awardLeaveOne st a)]
    exact races_awardLeaveOne st a

theorem races_awardWinOne (history : JMap RaceParticipantResult)
    (st : ServerState × List Emit) (standing : Standing) :
    (awardWinOne history st standing).1.races = st.1.races := by
  unfold awardWinOne
  dsimp only
  repeat' split
  all_goals rfl

theorem races_awardWinFold (history : JMap RaceParticipantResult) (standings : List Standing)
    (st : ServerState × List Emit) :
    (standings.foldl (awardWinOne history) st).1.races = st.1.races := by
  induction standings generalizing st with
  | nil => rfl
  | cons a r ih =>
    simp only [List.foldl_cons]
    rw [ih (awardWinOne history st a)]
    exact races_awardWinOne history st a

theorem inv_raceLeave (s : ServerState) (sid : String)
    (h : RacesUnfinished s) : RacesUnfinished (raceLeave s sid).1 := by
  unfold raceLeave
  cases hp : jsGet s.players sid with
  | none => exact h
  | some player =>
    dsimp only
    cases hr : player.raceId with
    | none => exact h
    | some rid =>
      dsimp only
      have hafter : RacesUnfinished (match jsGet s.races rid with
          | none => (s, ([] : List Emit))
          | some race =>
            let players1 := race.players.erase sid
            let history1 := markLeft race.history sid player.raceCheckpoints
            if players1.isEmpty then
              let finalStandings := (leaveRankedEntries history1).map standingOfLeave
              let awarded := finalStandings.foldl awardLeaveOne (s, [Emit.racePlayerLeft rid sid])
              let s2 := awarded.1
              ({ s2 with races := jsDelete s2.races rid },
               awarded.2 ++ emitEndedToOnline s2 finalStandings)
            else
              let race1 := { race with players := players1, history := history1 }
              ({ s with races := jsSet s.races rid race1 }, [Emit.racePlayerLeft rid sid])).1 := by
        cases hrace : jsGet s.races rid with
        | none => exact h
        | some race =>
          dsimp only
          by_cases hempty : (race.players.erase sid).isEmpty
          · simp only [hempty, if_true]
            unfold RacesUnfinished
            dsimp only
            refine racesMapUnfinished_jsDelete _ rid ?_
            have heq := races_awardLeaveFold
              ((leaveRankedEntries (markLeft race.history sid player.raceCheckpoints)).map standingOfLeave)
              (s, [Emit.racePlayerLeft rid sid])
            rw [heq]
            exact h
          · simp only [hempty, if_false]
            exact racesMapUnfinished_jsSet s.races rid _ h
              (historyUnfinished_markLeft race.history sid player.raceCheckpoints
                (racesMapUnfinished_get s.races rid race h hrace))
      cases hp2 : jsGet (match jsGet s.races rid with
          | none => (s, ([] : List Emit))
          | some race =>
            let players1 := race.players.erase sid
            let history1 := markLeft race.history sid player.raceCheckpoints
            if players1.isEmpty then
              let finalStandings := (leaveRankedEntries history1).map standingOfLeave
              let awarded := finalStandings.foldl awardLeaveOne (s, [Emit.racePlayerLeft rid sid])
              let s2 := awarded.1
              ({ s2 with races := jsDelete s2.races rid },
               awarded.2 ++ emitEndedToOnline s2 finalStandings)
            else
              let race1 := { race with players := players1, history := history1 }
              ({ s with races := jsSet s.races rid race1 }, [Emit.racePlayerLeft rid sid])).1.players sid with
      | none => exact hafter
      | some p2 => exact hafter

theorem inv_raceWin (s : ServerState) (sid : String)
    (h : RacesUnfinished s) : RacesUnfinished (raceWin s sid).1 := by
  unfold raceWin
  cases hp : jsGet s.players sid with
  | none => exact h
  | some player =>
    dsimp only
    cases hr : player.raceId with
    | none => exact h
    | some rid =>
      dsimp only
      cases hrace : jsGet s.races rid with
      | none => exact h
      | some race =>
        dsimp only
        unfold RacesUnfinished
        dsimp only
        refine racesMapUnfinished_jsDelete _ rid ?_
        have heq := races_awardWinFold (markWon race.history sid)
          ((winRankedEntries (markWon race.history sid)).map standingOfWin)
          (s, [Emit.raceEnded rid ((winRankedEntries (markWon race.history sid)).map standingOfWin)])
        rw [heq]
        exact h

theorem historyUnfinished_moveStep (raceId : String) (now : ℕ)
    (acc : JMap PlayerState × RaceSession) (entry : String × LobbyPlayer)
    (h : HistoryUnfinished acc.2.history) :
    HistoryUnfinished (moveMemberToRace raceId now acc entry).2.history := by
  unfold moveMemberToRace
  cases hget : jsGet acc.1 entry.1 with
  | none => exact h
  | some p =>
    dsimp only
    exact historyUnfinished_jsSet acc.2.history entry.1 _ h rfl

theorem historyUnfinished_moveFold (raceId : String) (now : ℕ)
    (entries : List (String × LobbyPlayer)) (acc : JMap PlayerState × RaceSession)
    (h : HistoryUnfinished acc.2.history) :
    HistoryUnfinished (entries.foldl (moveMemberToRace raceId now) acc).2.history := by
  induction entries generalizing acc with
  | nil => exact h
  | cons e r ih =>
    simp only [List.foldl_cons]
    exact ih (moveMemberToRace raceId now acc e) (historyUnfinished_moveStep raceId now acc e h)

theorem inv_startRace (s : ServerState) (lobby : Lobby) (seed : Int) (now : ℕ)
    (h : RacesUnfinished s) : RacesUnfinished (startRace s lobby seed now).1 := by
  unfold startRace RacesUnfinished
  dsimp only
  refine racesMapUnfinished_jsSet s.races lobby.id _ h ?_
  refine historyUnfinished_moveFold lobby.id now lobby.players _ ?_
  intro e he
  simp [jsValues] at he

theorem inv_startBattle (s : ServerState) (lobby : Lobby)
    (pickupRolls : List (String × PickupType × Vec3)) (now : ℕ)
    (h : RacesUnfinished s) : RacesUnfinished (startBattle s lobby pickupRolls now).1 := by
  unfold RacesUnfinished
  rw [races_startBattle]
  exact h

theorem inv_countdownTick (s : ServerState) (starterId lid : String) (cap : Lobby)
    (seed : Int) (pickupRolls : List (String × PickupType × Vec3)) (now : ℕ)
    (h : RacesUnfinished s) :
    RacesUnfinished (countdownTick s starterId lid cap seed pickupRolls now).1 := by
  unfold countdownTick
  dsimp only
  cases hc : ((jsGet s.lobbies lid).getD cap).countdown with
  | none => exact h
  | some n =>
    dsimp only
    by_cases hn : n = 0
    · simp only [hn, if_true]
      exact h
    · simp only [hn, if_false]
      by_cases hn1 : n - 1 ≤ 0
      · simp only [hn1, if_true]
        by_cases hmode : ((jsGet s.lobbies lid).getD cap).mode = GameMode.battle
        · simp only [hmode, if_true]
          by_cases hsome : (jsGet s.lobbies lid).isSome
          · simp only [hsome, if_true]
            exact inv_startBattle _ _ pickupRolls now h
          · simp only [hsome, if_false]
            exact inv_startBattle _ _ pickupRolls now h
        · simp only [hmode, if_false]
          by_cases hsome : (jsGet s.lobbies lid).isSome
          · simp only [hsome, if_true]
            exact inv_startRace _ _ seed now h
          · simp only [hsome, if_false]
            exact inv_startRace _ _ seed now h
      · simp only [hn1, if_false]
        by_cases hsome : (jsGet s.lobbies lid).isSome
        · simp only [hsome, if_true]
          exact h
        · simp only [hsome, if_false]
          exact h

theorem inv_sweepPlayerStep (now : ℕ) (st : ServerState × List Emit) (pid : String)
    (h : RacesUnfinished st.1) : RacesUnfinished (sweepPlayerStep now st pid).1 := by
  unfold sweepPlayerStep
  cases hget : jsGet st.1.players pid with
  | none => exact h
  | some p =>
    dsimp only
    by_cases htime : p.lastUpdate + 10000 < now
    · simp only [htime, if_true]
      exact inv_handlePlayerLeave st.1 pid h
    · simp only [htime, if_false]
      exact h

theorem inv_sweepPlayers (s : ServerState) (now : ℕ)
    (h : RacesUnfinished s) : RacesUnfinished (sweepPlayers s now).1 := by
  unfold sweepPlayers
  have key : ∀ (ks : List String) (st : ServerState × List Emit), RacesUnfinished st.1 →
      RacesUnfinished (ks.foldl (sweepPlayerStep now) st).1 := by
    intro ks
    induction ks with
    | nil => intro st hst; exact hst
    | cons pid r ih =>
      intro st hst
      simp only [List.foldl_cons]
      exact ih (sweepPlayerStep now st pid) (inv_sweepPlayerStep now st pid hst)
  exact key (jsKeys s.players) (s, []) h

theorem inv_sweepLobbies (s : ServerState) (now : ℕ)
    (h : RacesUnfinished s) : RacesUnfinished (sweepLobbies s now).1 := by
  unfold RacesUnfinished
  rw [races_sweepLobbies]
  exact h

theorem inv_sweepRaceStep (races : JMap RaceSession) (rid : String)
    (h : RacesMapUnfinished races) : RacesMapUnfinished (sweepRaceStep races rid) := by
  unfold sweepRaceStep
  cases hget : jsGet races rid with
  | none => exact h
  | some race =>
    dsimp only
    by_cases hempty : race.players.isEmpty
    · simp only [hempty, if_true]
      exact racesMapUnfinished_jsDelete races rid h
    · simp only [hempty, if_false]
      exact h

theorem inv_sweepRaces (s : ServerState)
    (h : RacesUnfinished s) : RacesUnfinished (sweepRaces s).1 := by
  unfold sweepRaces RacesUnfinished
  dsimp only
  have key : ∀ (ks : List String) (races : JMap RaceSession), RacesMapUnfinished races →
      RacesMapUnfinished (ks.foldl sweepRaceStep races) := by
    intro ks
    induction ks with
    | nil => intro races hr; exact hr
    | cons rid r ih =>
      intro races hr
      simp only [List.foldl_cons]
      exact ih (sweepRaceStep races rid) (inv_sweepRaceStep races rid hr)
  exact key (jsKeys s.races) s.races h

theorem inv_applyEvent (s : ServerState) (ev : Event)
    (h : RacesUnfinished s) : RacesUnfinished (applyEvent s ev).1 := by
  cases ev with
  | connect sid pname fp now =>
      unfold RacesUnfinished
      rw [applyEvent, races_connect]
      exact h
  | playerUpdate sid position rotation now =>
      unfold RacesUnfinished
      rw [applyEvent, races_playerUpdate]
      exact h
  | lobbyCreate sid position mode battleType newLobbyId now =>
      unfold RacesUnfinished
      rw [applyEvent, races_lobbyCreate]
      exact h
  | lobbyJoin sid lobbyId =>
      unfold RacesUnfinished
      rw [applyEvent, races_lobbyJoin]
      exact h
  | lobbyReady sid ready =>
      unfold RacesUnfinished
      rw [applyEvent, races_lobbyReady]
      exact h
  | lobbyStart sid =>
      unfold RacesUnfinished
      rw [applyEvent, races_lobbyStart]
      exact h
  | countdownTick starterId lid cap seed pickupRolls now =>
      rw [applyEvent]
      exact inv_countdownTick s starterId lid cap seed pickupRolls now h
  | lobbyLeave sid =>
      unfold RacesUnfinished
      rw [applyEvent, races_lobbyLeave]
      exact h
  | raceCheckpoint sid checkpoints now =>
      rw [applyEvent]
      exact inv_raceCheckpoint s sid checkpoints now h
  | raceLeave sid =>
      rw [applyEvent]
      exact inv_raceLeave s sid h
  | raceWin sid =>
      rw [applyEvent]
      exact inv_raceWin s sid h
  | battleShoot sid position velocity shotType projectileId =>
      unfold RacesUnfinished
      rw [applyEvent, races_battleShoot]
      exact h
  | battleHit sid targetId damage =>
      unfold RacesUnfinished
      rw [applyEvent, races_battleHit]
      exact h
  | battleRespawn sid spawnPos now =>
      unfold RacesUnfinished
      rw [applyEvent, races_battleRespawn]
      exact h
  | battlePickup sid pickupId effectRoll =>
      unfold RacesUnfinished
      rw [applyEvent, races_battlePickup]
      exact h
  | pickupRespawnFire battleId pickupId =>
      unfold RacesUnfinished
      rw [applyEvent, races_pickupRespawnFire]
      exact h
  | battleFlagPickup sid =>
      unfold RacesUnfinished
      rw [applyEvent, races_battleFlagPickup]
      exact h
  | battleSteal sid targetId =>
      unfold RacesUnfinished
      rw [applyEvent, races_battleSteal]
      exact h
  | battleScore sid =>
      unfold RacesUnfinished
      rw [applyEvent, races_battleScore]
      exact h
  | disconnect sid =>
      rw [applyEvent]
      exact inv_handlePlayerLeave s sid h
  | sweepPlayers now =>
      rw [applyEvent]
      exact inv_sweepPlayers s now h
  | sweepLobbies now =>
      rw [applyEvent]
      exact inv_sweepLobbies s now h
  | sweepRaces =>
      rw [applyEvent]
      exact inv_sweepRaces s h

theorem racesUnfinished_startState : RacesUnfinished startState := by
  intro race hr
  simp [startState, jsValues] at hr

theorem reachable_racesUnfinished (s : ServerState) (h : Reachable s) :
    RacesUnfinished s := by
  rcases h with ⟨evs, rfl⟩
  unfold runEvents
  have key : ∀ (evs : List Event) (s0 : ServerState), RacesUnfinished s0 →
      RacesUnfinished (evs.foldl (fun s ev => (applyEvent s ev).1) s0) := by
    intro evs
    induction evs with
    | nil => intro s0 h0; exact h0
    | cons ev r ih =>
      intro s0 h0
      simp only [List.foldl_cons]
      exact ih ((applyEvent s0 ev).1) (inv_applyEvent s0 ev h0)
  exact key evs startState racesUnfinished_startState

theorem pairwise_finishedFirst_winSort (l : List RaceParticipantResult) :
    (sortBy winLe l).Pairwise (fun a b => b.finished = true → a.finished = true) :=
  (pairwise_sortBy winLe l winLe_trans winLe_total).imp
    (fun hle hb => winLe_finished_first _ _ hle hb)

/-- C1: for every reachable server state and live race session, in the
ranked history produced by either ranking trigger (the `race:leave`
ranking over `markLeft` history, or the `race:win` ranking over
`markWon` history), whenever one ranked entry is finished and another
is unfinished, the finished entry has the strictly smaller 1-based
rank, regardless of checkpoint counts.  For the win trigger this holds
because the comparator orders finished entries first; for the leave
trigger it holds because no finished entry can exist in a live race's
history (`race:win`, the only writer of `finished`, deletes its session
in the same handler). -/
theorem c1_ranking_finished_ranks_higher (s : ServerState) (hs : Reachable s)
    (rid : String) (race : RaceSession) (hr : jsGet s.races rid = some race) :
    (∀ (leaverId : String) (cp : Int) (p q : RaceParticipantResult × ℕ),
        p ∈ leaveRankedEntries (markLeft race.history leaverId cp) →
        q ∈ leaveRankedEntries (markLeft race.history leaverId cp) →
        p.1.finished = true → q.1.finished = false → p.2 < q.2)
    ∧ (∀ (winnerId : String) (p q : RaceParticipantResult × ℕ),
        p ∈ winRankedEntries (markWon race.history winnerId) →
        q ∈ winRankedEntries (markWon race.history winnerId) →
        p.1.finished = true → q.1.finished = false → p.2 < q.2) := by
  constructor
  · intro leaverId cp p q hp hq hpf hqf
    exfalso
    have hinv := reachable_racesUnfinished s hs
    have hh : HistoryUnfinished race.history := racesMapUnfinished_get s.races rid race hinv hr
    have hh1 := historyUnfinished_markLeft race.history leaverId cp hh
    have hmem : p.1 ∈ sortBy leaveLe (jsValues (markLeft race.history leaverId cp)) :=
      withRanks_mem_fst _ 1 p hp
    have hmem2 := mem_sortBy leaveLe _ p.1 hmem
    have hfalse := hh1 p.1 hmem2
    rw [hpf] at hfalse
    exact Bool.noConfusion hfalse
  · intro winnerId p q hp hq hpf hqf
    have hpw := pairwise_finishedFirst_winSort (jsValues (markWon race.history winnerId))
    rcases lt_trichotomy p.2 q.2 with hlt | heq | hgt
    · exact hlt
    · exfalso
      have hpq := withRanks_rank_inj _ 1 p q hp hq heq
      rw [hpq] at hpf
      rw [hpf] at hqf
      exact Bool.noConfusion hqf
    · exfalso
      have hR := withRanks_pairwise _ _ 1 hpw q p hq hp hgt
      have hqt := hR hpf
      rw [hqf] at hqt
      exact Bool.noConfusion hqt

/-- A throwaway captured-lobby value for countdown ticks whose lobby is
still registered (the tick then reads the map entry and ignores it). -/
def demoCap : Lobby := freshLobby "p1" "Hosty" "L1" (0, 350, 0) none none 0

/-- A concrete trace: two players connect, the first hosts a race
lobby at the spawn point, the second joins, the host starts, and the
countdown ticks three times, creating race session `L1`. -/
def raceSetupEvents : List Event :=
  [Event.connect "p1" "Hosty" "fp1" 0,
   Event.connect "p2" "Guest" "fp2" 0,
   Event.lobbyCreate "p1" (0, 350, 0) none none "L1" 0,
   Event.lobbyJoin "p2" "L1",
   Event.lobbyStart "p1",
   Event.countdownTick "p1" "L1" demoCap 42 [] 1,
   Event.countdownTick "p1" "L1" demoCap 42 [] 1,
   Event.countdownTick "p1" "L1" demoCap 42 [] 1]

/-- The server state reached by `raceSetupEvents`. -/
def raceDemoState : ServerState := runEvents raceSetupEvents

/-- History entry of player `p1` in the demo race. -/
def raceDemoEntryOne : RaceParticipantResult :=
  { id := "p1", name := "Hosty", checkpoints := 0, finished := false, active := true,
    lastCheckpointTime := some 1, fingerprint := some "fp1" }

/-- History entry of player `p2` in the demo race. -/
def raceDemoEntryTwo : RaceParticipantResult :=
  { id := "p2", name := "Guest", checkpoints := 0, finished := false, active := true,
    lastCheckpointTime := some 1, fingerprint := some "fp2" }

/-- The demo race session as reached by `raceSetupEvents`. -/
def raceDemoRace : RaceSession :=
  { id := "L1", players := ["p1", "p2"],
    history := [("p1", raceDemoEntryOne), ("p2", raceDemoEntryTwo)],
    startTime := 1, ringsSeed := 42, isActive := true }

/-- `raceDemoEntryOne` after `race:win` marks it finished. -/
def raceDemoEntryWon : RaceParticipantResult :=
  { raceDemoEntryOne with finished := true, checkpoints := 999999 }

theorem c1_ranking_finished_ranks_higher_witness :
    Reachable raceDemoState ∧
    jsGet raceDemoState.races "L1" = some raceDemoRace ∧
    (raceDemoEntryWon, 1) ∈ winRankedEntries (markWon raceDemoRace.history "p1") ∧
    (raceDemoEntryTwo, 2) ∈ winRankedEntries (markWon raceDemoRace.history "p1") ∧
    raceDemoEntryWon.finished = true ∧ raceDemoEntryTwo.finished = false ∧ 1 < 2 :=
  ⟨⟨raceSetupEvents, rfl⟩, by decide, by decide, by decide, by decide, by decide,
   (c1_ranking_finished_ranks_higher raceDemoState ⟨raceSetupEvents, rfl⟩ "L1" raceDemoRace
      (by decide)).2 "p1" (raceDemoEntryWon, 1) (raceDemoEntryTwo, 2)
      (by decide) (by decide) (by decide) (by decide)⟩

/-- C2 counterexample: in a reachable race, `race:checkpoint` reports of
5 and then 3 drive the history checkpoint count from 5 down to 3 — the
handler stores the reported count without validation, so counts are not
monotonic. -/
theorem c2_checkpoint_can_decrease :
    ((jsGet (runEvents (raceSetupEvents ++ [Event.raceCheckpoint "p1" 5 2])).races "L1").bind
      (fun race => jsGet race.history "p1")).map (fun e => e.checkpoints) = some 5 ∧
    ((jsGet (runEvents (raceSetupEvents ++
        [Event.raceCheckpoint "p1" 5 2, Event.raceCheckpoint "p1" 3 3])).races "L1").bind
      (fun race => jsGet race.history "p1")).map (fun e => e.checkpoints) = some 3 ∧
    (3 : Int) < 5 := by
  refine ⟨by decide, by decide, by norm_num⟩

/-- The updated history entry written by `race:checkpoint`. -/
def checkpointEntry (participant : RaceParticipantResult) (cp : Int) (now : ℕ) :
    RaceParticipantResult :=
  { participant with checkpoints := cp, lastCheckpointTime := some now }

/-- C2 (amended): `race:checkpoint` overwrites the participant's
history entry with exactly the reported count (and the report time), so
the count never decreases precisely when the client's reported sequence
is non-decreasing. -/
theorem c2_checkpoint_stores_reported (s : ServerState) (sid : String) (cp : Int) (now : ℕ)
    (player : PlayerState) (hp : jsGet s.players sid = some player)
    (rid : String) (hrid : player.raceId = some rid)
    (race : RaceSession) (hrace : jsGet s.races rid = some race)
    (participant : RaceParticipantResult) (hpart : jsGet race.history sid = some participant) :
    jsGet (raceCheckpoint s sid cp now).1.races rid =
      some { race with history := jsSet race.history sid (checkpointEntry participant cp now) } ∧
    (participant.checkpoints ≤ cp →
      participant.checkpoints ≤ (checkpointEntry participant cp now).checkpoints) := by
  constructor
  · unfold raceCheckpoint
    rw [hp]
    dsimp only
    rw [hrid]
    dsimp only
    rw [hrace]
    dsimp only
    rw [hpart]
    dsimp only
    exact jsGet_set_self s.races rid _
  · intro hle
    exact hle

theorem c2_checkpoint_stores_reported_witness :
    jsGet (raceCheckpoint raceDemoState "p1" 5 2).1.races "L1" =
      some { raceDemoRace with
        history := jsSet raceDemoRace.history "p1" (checkpointEntry raceDemoEntryOne 5 2) } ∧
    (raceDemoEntryOne.checkpoints ≤ 5 →
      raceDemoEntryOne.checkpoints ≤ (checkpointEntry raceDemoEntryOne 5 2).checkpoints) :=
  c2_checkpoint_stores_reported raceDemoState "p1" 5 2
    ((jsGet raceDemoState.players "p1").getD (freshPlayer "x" "x" "x" 0 0)) (by decide)
    "L1" (by decide) raceDemoRace (by decide) raceDemoEntryOne (by decide)

/-- A concrete trace: two players connect, the first hosts a deathmatch
battle lobby, the second joins, the host starts, and the countdown
ticks three times, creating battle session `B1` with one seeded ammo
pickup `k1`. -/
def battleSetupEvents : List Event :=
  [Event.connect "p1" "Hosty" "fp1" 0,
   Event.connect "p2" "Guest" "fp2" 0,
   Event.lobbyCreate "p1" (0, 350, 0) (some GameMode.battle) (some BattleType.deathmatch) "B1" 0,
   Event.lobbyJoin "p2" "B1",
   Event.lobbyStart "p1",
   Event.countdownTick "p1" "B1" demoCap 0 [("k1", PickupType.ammo, (1, 2, 3))] 1,
   Event.countdownTick "p1" "B1" demoCap 0 [("k1", PickupType.ammo, (1, 2, 3))] 1,
   Event.countdownTick "p1" "B1" demoCap 0 [("k1", PickupType.ammo, (1, 2, 3))] 1]

/-- The server state reached by `battleSetupEvents`. -/
def battleDemoState : ServerState := runEvents battleSetupEvents

/-- `battleDemoState` after `p1` lands a lethal 100-damage hit on `p2`,
leaving `p2` dead. -/
def c3State : ServerState := runEvents (battleSetupEvents ++ [Event.battleHit "p1" "p2" 100])

/-- Placeholder records for `Option.getD` projections in witnesses. -/
def defaultBattle : BattleSession :=
  { id := "", players := [], mode := BattleType.deathmatch, startTime := 0, isActive := false,
    projectiles := [], pickups := [], scores := [], flag := none }

def defaultBattlePlayer : BattlePlayerState :=
  { id := "", name := "", position := (0, 0, 0), rotation := (0, 0, 0, 1), hp := 0, maxHp := 0,
    isDead := false, team := none, ammo := 0, killCount := 0, deathCount := 0, lastRespawn := 0 }

/-- C3 counterexample: in a reachable deathmatch, `p2` is dead, yet a
`battle:hit` sent by the dead `p2` still damages `p1` (hp 100 to 70):
`battle:hit` never checks the shooter's `isDead` flag. -/
theorem c3_dead_shooter_deals_damage :
    ((jsGet c3State.battles "B1").bind (fun b => jsGet b.players "p2")).map
      (fun bp => bp.isDead) = some true ∧
    ((jsGet c3State.battles "B1").bind (fun b => jsGet b.players "p1")).map
      (fun bp => bp.hp) = some 100 ∧
    ((jsGet (runEvents (battleSetupEvents ++
        [Event.battleHit "p1" "p2" 100, Event.battleHit "p2" "p1" 30])).battles "B1").bind
      (fun b => jsGet b.players "p1")).map (fun bp => bp.hp) = some 70 := by
  refine ⟨by decide, by decide, by decide⟩

/-- C3 (amended): a dead player cannot *receive* damage — `battle:hit`
on a dead target is a complete no-op — and a dead player cannot shoot —
`battle:shoot` from a dead shooter is a complete no-op; but `battle:hit`
does not examine the shooter's death state. -/
theorem c3_dead_target_and_dead_shooter_guards (s : ServerState) (sid targetId : String)
    (damage : Int) (position velocity : Vec3) (shotType projectileId : String)
    (bid : String) (shooter : PlayerState) (battle : BattleSession)
    (hp : jsGet s.players sid = some shooter)
    (hrid : shooter.raceId = some bid)
    (hb : jsGet s.battles bid = some battle) :
    (∀ target, jsGet battle.players targetId = some target → target.isDead = true →
        battleHit s sid targetId damage = (s, []))
    ∧ (∀ bp, jsGet battle.players sid = some bp → bp.isDead = true →
        battleShoot s sid position velocity shotType projectileId = (s, [])) := by
  constructor
  · intro target ht hdead
    unfold battleHit
    rw [hp]
    dsimp only
    rw [hrid]
    dsimp only
    rw [hb]
    dsimp only
    rw [ht]
    dsimp only
    rw [if_pos hdead]
  · intro bp hbp hdead
    unfold battleShoot
    rw [hp]
    dsimp only
    rw [hrid]
    dsimp only
    rw [hb]
    dsimp only
    rw [hbp]
    dsimp only
    rw [if_pos (Or.inl hdead)]

/-- The dead `p2` combat record inside `c3State`. -/
def c3DeadP2 : BattlePlayerState :=
  (jsGet ((jsGet c3State.battles "B1").getD defaultBattle).players "p2").getD defaultBattlePlayer

theorem c3_dead_target_and_dead_shooter_guards_witness :
    battleHit c3State "p2" "p2" 5 = (c3State, []) ∧
    battleShoot c3State "p2" (0, 0, 0) (0, 0, 0) "normal" "j1" = (c3State, []) :=
  ⟨(c3_dead_target_and_dead_shooter_guards c3State "p2" "p2" 5 (0, 0, 0) (0, 0, 0) "normal" "j1"
      "B1" ((jsGet c3State.players "p2").getD (freshPlayer "x" "x" "x" 0 0))
      ((jsGet c3State.battles "B1").getD defaultBattle)
      (by decide) (by decide) (by decide)).1 c3DeadP2 (by decide) (by decide),
   (c3_dead_target_and_dead_shooter_guards c3State "p2" "p2" 5 (0, 0, 0) (0, 0, 0) "normal" "j1"
      "B1" ((jsGet c3State.players "p2").getD (freshPlayer "x" "x" "x" 0 0))
      ((jsGet c3State.battles "B1").getD defaultBattle)
      (by decide) (by decide) (by decide)).2 c3DeadP2 (by decide) (by decide)⟩

/-- The countdown closure's captured lobby object after its lobby was
deleted by `lobby:leave`: members emptied, countdown still running at
`n` (nothing ever resets `countdown` to null). -/
def c4CapAt (n : Int) : Lobby :=
  { freshLobby "p1" "Hosty" "L9" (0, 350, 0) none none 0 with players := [], countdown := some n }

/-- A concrete trace: a lone host creates a race lobby, starts the
countdown, and leaves — deleting the lobby from the map while the
interval keeps firing. -/
def c4PrefixEvents : List Event :=
  [Event.connect "p1" "Hosty" "fp1" 0,
   Event.lobbyCreate "p1" (0, 350, 0) none none "L9" 0,
   Event.lobbyStart "p1",
   Event.lobbyLeave "p1"]

/-- The same trace followed by the three countdown firings, each acting
on the deleted lobby object. -/
def c4Events : List Event :=
  c4PrefixEvents ++
  [Event.countdownTick "p1" "L9" (c4CapAt 3) 7 [] 1,
   Event.countdownTick "p1" "L9" (c4CapAt 2) 7 [] 1,
   Event.countdownTick "p1" "L9" (c4CapAt 1) 7 [] 2]

/-- C4: the countdown tick checks only the captured lobby object's
`countdown` field and never re-validates `lobbies.has(...)`, so after
the lobby's deletion the interval still counts down to zero and then
registers a race session for the deleted lobby in the shared `races`
map; by contrast the pickup-respawn timer does re-validate
`battles.has(...)` and, fired against an absent battle, changes
nothing and emits nothing. -/
theorem c4_countdown_tick_mutates_after_deletion :
    jsGet (runEvents c4PrefixEvents).lobbies "L9" = none ∧
    jsGet (runEvents c4PrefixEvents).races "L9" = none ∧
    jsGet (runEvents c4Events).races "L9" =
      some { id := "L9", players := [], history := [], startTime := 2, ringsSeed := 7,
             isActive := true } ∧
    pickupRespawnFire (runEvents c4PrefixEvents) "B1" "k1" = (runEvents c4PrefixEvents, []) := by
  refine ⟨by decide, by decide, by decide, by decide⟩

/-- Trace for C5: the demo race, then `p1` reports checkpoint 5 and
disconnects entirely; the race's history keeps `p1`'s entry (count 5,
fingerprint) while the live player record is gone. -/
def c5PreEvents : List Event :=
  raceSetupEvents ++ [Event.raceCheckpoint "p1" 5 2, Event.disconnect "p1"]

/-- The same trace followed by `p2`'s `race:leave`, which empties the
active set and runs the leave-triggered End-of-Race Ranking. -/
def c5Events : List Event := c5PreEvents ++ [Event.raceLeave "p2"]

/-- C5 counterexample: at ranking time the rank-1 history entry (`p1`,
5 checkpoints) carries fingerprint `fp1` and its player is
disconnected; the leave-triggered award loop looks the player up in the
live `players` map instead of using the history fingerprint, so after
the ranking the ledger has no entry for `fp1` (the claim demands an
increment of 100) while the still-connected rank-2 player's `fp2` is
credited 50. -/
theorem c5_leave_award_skips_disconnected :
    ((jsGet (runEvents c5PreEvents).races "L1").bind
      (fun r => jsGet r.history "p1")).bind (fun e => e.fingerprint) = some "fp1" ∧
    ((jsGet (runEvents c5PreEvents).races "L1").bind
      (fun r => jsGet r.history "p1")).map (fun e => e.checkpoints) = some 5 ∧
    jsGet (runEvents c5PreEvents).players "p1" = none ∧
    jsGet (runEvents c5Events).races "L1" = none ∧
    jsGet (runEvents c5Events).globalScores "fp1" = none ∧
    jsGet (runEvents c5Events).globalScores "fp2" = some 50 := by
  refine ⟨by decide, by decide, by decide, by decide, by decide, by decide⟩

theorem awardWinOne_scores_of_fp (history : JMap RaceParticipantResult)
    (st : ServerState × List Emit) (standing : Standing) (fp : String)
    (hfp : (jsGet history standing.id).bind (fun p => p.fingerprint) = some fp) :
    jsGet (awardWinOne history st standing).1.globalScores fp =
      some (jsGetD st.1.globalScores fp 0 +
        (1 + if standing.rank ≤ 3 then pointsAward standing.rank else 0)) := by
  unfold awardWinOne
  rw [hfp]
  dsimp only
  split
  · exact jsGet_set_self _ fp _
  · exact jsGet_set_self _ fp _

theorem awardWinOne_scores_other (history : JMap RaceParticipantResult)
    (st : ServerState × List Emit) (standing : Standing) (fp : String)
    (hfp : (jsGet history standing.id).bind (fun p => p.fingerprint) ≠ some fp) :
    jsGet (awardWinOne history st standing).1.globalScores fp = jsGet st.1.globalScores fp := by
  unfold awardWinOne
  cases hx : (jsGet history standing.id).bind (fun p => p.fingerprint) with
  | none => rfl
  | some fp2 =>
    dsimp only
    have hne : fp ≠ fp2 := by
      intro h
      exact hfp (by rw [hx, h])
    split
    · exact jsGet_set_ne _ fp2 fp _ hne
    · exact jsGet_set_ne _ fp2 fp _ hne

theorem awardWinFold_scores_other (history : JMap RaceParticipantResult)
    (l : List Standing) (st : ServerState × List Emit) (fp : String)
    (hl : ∀ x ∈ l, (jsGet history x.id).bind (fun p => p.fingerprint) ≠ some fp) :
    jsGet (l.foldl (awardWinOne history) st).1.globalScores fp = jsGet st.1.globalScores fp := by
  induction l generalizing st with
  | nil => rfl
  | cons a r ih =>
    simp only [List.foldl_cons]
    rw [ih (awardWinOne history st a) (fun x hx => hl x (List.mem_cons.mpr (Or.inr hx)))]
    exact awardWinOne_scores_other history st a fp (hl a (List.mem_cons.mpr (Or.inl rfl)))

/-- C5 (amended): only the `race:win` path awards through the
fingerprint stored in the race history: for a standing whose history
entry carries fingerprint `fp` (unique in the standings list), the win
award loop leaves the ledger at `fp` incremented by the participation
point plus the rank bonus, with no reference to the live `players`
map — the participant is credited even when disconnected.  The
`race:leave` path instead awards through the live player record: a
standing whose player is absent from the `players` map is skipped
entirely. -/
theorem c5_win_awards_by_history_fingerprint
    (history : JMap RaceParticipantResult) (l1 l2 : List Standing) (st : Standing)
    (fp : String) (s0 : ServerState) (e0 : List Emit)
    (hfp : (jsGet history st.id).bind (fun p => p.fingerprint) = some fp)
    (hl1 : ∀ x ∈ l1, (jsGet history x.id).bind (fun p => p.fingerprint) ≠ some fp)
    (hl2 : ∀ x ∈ l2, (jsGet history x.id).bind (fun p => p.fingerprint) ≠ some fp) :
    jsGet ((l1 ++ st :: l2).foldl (awardWinOne history) (s0, e0)).1.globalScores fp =
      some (jsGetD s0.globalScores fp 0 +
        (1 + if st.rank ≤ 3 then pointsAward st.rank else 0)) ∧
    (∀ (s1 : ServerState) (e1 : List Emit) (st1 : Standing),
        jsGet s1.players st1.id = none → awardLeaveOne (s1, e1) st1 = (s1, e1)) := by
  constructor
  · rw [List.foldl_append, List.foldl_cons]
    rw [awardWinFold_scores_other history l2 _ fp hl2]
    rw [awardWinOne_scores_of_fp history _ st fp hfp]
    unfold jsGetD
    rw [awardWinFold_scores_other history l1 (s0, e0) fp hl1]
  · intro s1 e1 st1 hnone
    unfold awardLeaveOne
    by_cases hr : st1.rank ≤ 3
    · rw [if_pos hr]
      dsimp only
      rw [hnone]
    · rw [if_neg hr]

/-- The rank-1 win-path standing of the demo race. -/
def c5StandingOne : Standing := { id := "p1", name := "Hosty", checkpoints := 20, rank := 1 }

/-- The rank-2 win-path standing of the demo race. -/
def c5StandingTwo : Standing := { id := "p2", name := "Guest", checkpoints := 0, rank := 2 }

/-- A standing whose player id is not connected. -/
def c5GhostStanding : Standing := { id := "ghost", name := "Ghost", checkpoints := 9, rank := 1 }

theorem c5_win_awards_by_history_fingerprint_witness :
    jsGet (([] ++ c5StandingOne :: [c5StandingTwo]).foldl
        (awardWinOne (markWon raceDemoRace.history "p1")) (raceDemoState, [])).1.globalScores "fp1" =
      some (jsGetD raceDemoState.globalScores "fp1" 0 +
        (1 + if c5StandingOne.rank ≤ 3 then pointsAward c5StandingOne.rank else 0)) ∧
    awardLeaveOne (raceDemoState, []) c5GhostStanding = (raceDemoState, []) :=
  ⟨(c5_win_awards_by_history_fingerprint (markWon raceDemoRace.history "p1") [] [c5StandingTwo]
      c5StandingOne "fp1" raceDemoState [] (by decide) (by decide) (by decide)).1,
   (c5_win_awards_by_history_fingerprint (markWon raceDemoRace.history "p1") [] [c5StandingTwo]
      c5StandingOne "fp1" raceDemoState [] (by decide) (by decide) (by decide)).2
      raceDemoState [] c5GhostStanding (by decide)⟩

/-- A concrete trace: two players in a CTF battle `C1` (flag spawns 50
above the portal, at `(0, 400, 0)`). -/
def ctfSetupEvents : List Event :=
  [Event.connect "p1" "Hosty" "fp1" 0,
   Event.connect "p2" "Guest" "fp2" 0,
   Event.lobbyCreate "p1" (0, 350, 0) (some GameMode.battle) (some BattleType.ctf) "C1" 0,
   Event.lobbyJoin "p2" "C1",
   Event.lobbyStart "p1",
   Event.countdownTick "p1" "C1" demoCap 0 [] 1,
   Event.countdownTick "p1" "C1" demoCap 0 [] 1,
   Event.countdownTick "p1" "C1" demoCap 0 [] 1]

/-- `p1` moves to distance 17 from the flag and picks it up. -/
def c6PickupEvents : List Event :=
  ctfSetupEvents ++
  [Event.playerUpdate "p1" (0, 383, 0) (0, 0, 0, 1) 2, Event.battleFlagPickup "p1"]

/-- `p2` then moves to distance 17 from the carrier `p1` and attempts a
steal. -/
def c6StealAttemptEvents : List Event :=
  c6PickupEvents ++ [Event.playerUpdate "p2" (17, 383, 0) (0, 0, 0, 1) 2]

/-- C6: the steal radius (15) is strictly *smaller* than the pickup
radius (20) — the opposite of the claim and of the code's own comment
"slightly larger than pickup".  Behaviourally: at distance 17 (squared
distance 289) a fresh `battle:flagPickup` succeeds, while at the same
distance from the carrier `battle:steal` is an exact no-op and the
carrier is unchanged. -/
theorem c6_steal_radius_smaller_than_pickup :
    flagStealRadius < flagPickupRadius ∧
    distSq (0, 383, 0) (0, 400, 0) = 289 ∧
    (289 : Int) < flagPickupRadius ^ 2 ∧
    ¬ ((289 : Int) < flagStealRadius ^ 2) ∧
    ((jsGet (runEvents c6PickupEvents).battles "C1").bind
      (fun b => b.flag)).map (fun f => f.carrierId) = some (some "p1") ∧
    distSq (17, 383, 0) (0, 383, 0) = 289 ∧
    applyEvent (runEvents c6StealAttemptEvents) (Event.battleSteal "p2" "p1") =
      (runEvents c6StealAttemptEvents, []) := by
  refine ⟨by decide, by decide, by decide, by decide, by decide, by decide, by decide⟩

theorem jsGet_delete_self {α : Type} (m : JMap α) (k : String) :
    jsGet (jsDelete m k) k = none := by
  induction m with
  | nil => rfl
  | cons p r ih =>
    by_cases h : p.1 = k
    · simpa [jsDelete, List.filter_cons, h] using ih
    · simpa [jsDelete, List.filter_cons, h, jsGet] using ih

theorem lobbies_removeFromGame (s : ServerState) (sid rid : String) :
    (removeFromGame s sid rid).1.lobbies = s.lobbies := by
  simp only [removeFromGame]
  repeat' split
  all_goals rfl

/-- The member record promoted to host (`newHost.isHost = true` written
back into the member map, in place). -/
def promoteHost (m : JMap LobbyPlayer) (newHost : LobbyPlayer) : JMap LobbyPlayer :=
  jsSet m newHost.id { newHost with isHost := true }

/-- The lobby as rewritten by host migration. -/
def migratedLobby (lobby : Lobby) (sid : String) (newHost : LobbyPlayer) : Lobby :=
  { lobby with players := promoteHost (jsDelete lobby.players sid) newHost,
               hostId := newHost.id, hostName := newHost.name }

/-- C7: when the host leaves a lobby, the shared host-migration block
(run by both `lobby:leave` and the disconnect/timeout cascade
`handlePlayerLeave`) deterministically promotes exactly the *first
remaining member in the member map's insertion order* — the head of
`jsValues` of the member map after the deletion — or deletes the lobby
when nobody remains; both event handlers produce exactly this block's
lobby map. -/
theorem c7_host_migration_first_in_insertion_order (s : ServerState) (sid lid : String)
    (lobby : Lobby) (player : PlayerState)
    (hp : jsGet s.players sid = some player) (hlid : player.lobbyId = some lid)
    (hl : jsGet s.lobbies lid = some lobby) (hhost : lobby.hostId = sid) :
    (∀ (newHost : LobbyPlayer) (t : List LobbyPlayer),
        jsValues (jsDelete lobby.players sid) = newHost :: t →
        jsGet (removeFromLobby s sid lid).1.lobbies lid =
          some (migratedLobby lobby sid newHost))
    ∧ (jsValues (jsDelete lobby.players sid) = [] →
        jsGet (removeFromLobby s sid lid).1.lobbies lid = none)
    ∧ (lobbyLeave s sid).1.lobbies = (removeFromLobby s sid lid).1.lobbies
    ∧ (handlePlayerLeave s sid).1.lobbies = (removeFromLobby s sid lid).1.lobbies := by
  refine ⟨?_, ?_, ?_, ?_⟩
  · intro newHost t hrem
    unfold removeFromLobby
    rw [hl]
    dsimp only
    rw [if_pos hhost, hrem]
    dsimp only
    exact jsGet_set_self s.lobbies lid _
  · intro hrem
    unfold removeFromLobby
    rw [hl]
    dsimp only
    rw [if_pos hhost, hrem]
    dsimp only
    exact jsGet_delete_self s.lobbies lid
  · unfold lobbyLeave
    rw [hp]
    dsimp only
    rw [hlid]
    dsimp only
    split
    · rfl
    · rfl
  · unfold handlePlayerLeave
    rw [hp]
    dsimp only
    rw [hlid]
    dsimp only
    cases hr : player.raceId with
    | none => rfl
    | some rid =>
      dsimp only
      exact lobbies_removeFromGame (removeFromLobby s sid lid).1 sid rid

/-- A concrete trace: three players, `p1` hosting lobby `L7`, members
joining in the order `p1`, `p2`, `p3`. -/
def c7Events : List Event :=
  [Event.connect "p1" "Hosty" "fp1" 0,
   Event.connect "p2" "Guest" "fp2" 0,
   Event.connect "p3" "Third" "fp3" 0,
   Event.lobbyCreate "p1" (0, 350, 0) none none "L7" 0,
   Event.lobbyJoin "p2" "L7",
   Event.lobbyJoin "p3" "L7"]

/-- The server state reached by `c7Events`. -/
def c7State : ServerState := runEvents c7Events

/-- The lobby `L7` in `c7State`. -/
def c7Lobby : Lobby :=
  (jsGet c7State.lobbies "L7").getD (freshLobby "x" "x" "x" (0, 0, 0) none none 0)

/-- The second member in insertion order, the expected migration target. -/
def c7NewHost : LobbyPlayer := { id := "p2", name := "Guest", isHost := false, ready := false }

/-- The third member in insertion order. -/
def c7ThirdMember : LobbyPlayer := { id := "p3", name := "Third", isHost := false, ready := false }

theorem c7_host_migration_first_in_insertion_order_witness :
    jsGet (removeFromLobby c7State "p1" "L7").1.lobbies "L7" =
      some (migratedLobby c7Lobby "p1" c7NewHost) ∧
    (lobbyLeave c7State "p1").1.lobbies = (removeFromLobby c7State "p1" "L7").1.lobbies :=
  ⟨(c7_host_migration_first_in_insertion_order c7State "p1" "L7" c7Lobby
      ((jsGet c7State.players "p1").getD (freshPlayer "x" "x" "x" 0 0))
      (by decide) (by decide) (by decide) (by decide)).1 c7NewHost [c7ThirdMember] (by decide),
   (c7_host_migration_first_in_insertion_order c7State "p1" "L7" c7Lobby
      ((jsGet c7State.players "p1").getD (freshPlayer "x" "x" "x" 0 0))
      (by decide) (by decide) (by decide) (by decide)).2.2.1⟩

/-- C8: a pickup is never collected twice without an intervening
respawn.  (i) While a pickup is inactive, any `battle:pickup` for it is
an exact no-op: no player effect, no state change, no broadcast.
(ii) A successful collection (pickup active, collector alive) leaves
the pickup stored inactive.  (iii) Only the respawn timer's firing,
with the battle still present, stores it active again. -/
theorem c8_pickup_requires_respawn :
    (∀ (s : ServerState) (sid pickupId : String) (effectRoll : Bool)
        (player : PlayerState) (bid : String) (battle : BattleSession) (pickup : Pickup),
        jsGet s.players sid = some player → player.raceId = some bid →
        jsGet s.battles bid = some battle → jsGet battle.pickups pickupId = some pickup →
        pickup.active = false →
        battlePickup s sid pickupId effectRoll = (s, []))
    ∧ (∀ (s : ServerState) (sid pickupId : String) (effectRoll : Bool)
        (player : PlayerState) (bid : String) (battle : BattleSession) (pickup : Pickup)
        (bp : BattlePlayerState),
        jsGet s.players sid = some player → player.raceId = some bid →
        jsGet s.battles bid = some battle → jsGet battle.pickups pickupId = some pickup →
        pickup.active = true → jsGet battle.players sid = some bp → bp.isDead = false →
        ((jsGet (battlePickup s sid pickupId effectRoll).1.battles bid).bind
          (fun b => jsGet b.pickups pickupId)) = some { pickup with active := false })
    ∧ (∀ (s : ServerState) (battleId pickupId : String) (battle : BattleSession) (pickup : Pickup),
        jsGet s.battles battleId = some battle → jsGet battle.pickups pickupId = some pickup →
        ((jsGet (pickupRespawnFire s battleId pickupId).1.battles battleId).bind
          (fun b => jsGet b.pickups pickupId)) = some { pickup with active := true }) := by
  refine ⟨?_, ?_, ?_⟩
  · intro s sid pickupId effectRoll player bid battle pickup hp hrid hb hpk hina
    unfold battlePickup
    rw [hp]
    dsimp only
    rw [hrid]
    dsimp only
    rw [hb]
    dsimp only
    rw [hpk]
    dsimp only
    have hcond : ¬ (pickup.active = true) := by
      rw [hina]
      exact Bool.noConfusion
    rw [if_neg hcond]
  · intro s sid pickupId effectRoll player bid battle pickup bp hp hrid hb hpk hact hbp halive
    unfold battlePickup
    rw [hp]
    dsimp only
    rw [hrid]
    dsimp only
    rw [hb]
    dsimp only
    rw [hpk]
    dsimp only
    rw [if_pos hact, hbp]
    dsimp only
    have hcond : ¬ (bp.isDead = true) := by
      rw [halive]
      exact Bool.noConfusion
    rw [if_neg hcond]
    cases hty : pickup.type <;> dsimp only <;> rw [jsGet_set_self] <;>
      dsimp only [Option.bind] <;> exact jsGet_set_self _ pickupId _
  · intro s battleId pickupId battle pickup hb hpk
    unfold pickupRespawnFire
    rw [hb]
    dsimp only
    rw [hpk]
    dsimp only
    rw [jsGet_set_self]
    dsimp only [Option.bind]
    exact jsGet_set_self _ pickupId _

/-- `battleDemoState` after `p1` collects the ammo pickup `k1`. -/
def c8CollectedState : ServerState :=
  runEvents (battleSetupEvents ++ [Event.battlePickup "p1" "k1" true])

/-- The seeded pickup `k1` of the demo battle, while still active. -/
def c8ActivePickup : Pickup := { type := PickupType.ammo, position := (1, 352, 3), active := true }

/-- The same pickup after collection. -/
def c8InactivePickup : Pickup := { c8ActivePickup with active := false }

theorem c8_pickup_requires_respawn_witness :
    ((jsGet (battlePickup battleDemoState "p1" "k1" true).1.battles "B1").bind
      (fun b => jsGet b.pickups "k1")) = some { c8ActivePickup with active := false } ∧
    battlePickup c8CollectedState "p2" "k1" false = (c8CollectedState, []) ∧
    ((jsGet (pickupRespawnFire c8CollectedState "B1" "k1").1.battles "B1").bind
      (fun b => jsGet b.pickups "k1")) = some { c8InactivePickup with active := true } :=
  ⟨c8_pickup_requires_respawn.2.1 battleDemoState "p1" "k1" true
      ((jsGet battleDemoState.players "p1").getD (freshPlayer "x" "x" "x" 0 0)) "B1"
      ((jsGet battleDemoState.battles "B1").getD defaultBattle) c8ActivePickup
      ((jsGet ((jsGet battleDemoState.battles "B1").getD defaultBattle).players "p1").getD
        defaultBattlePlayer)
      (by decide) (by decide) (by decide) (by decide) (by decide) (by decide) (by decide),
   c8_pickup_requires_respawn.1 c8CollectedState "p2" "k1" false
      ((jsGet c8CollectedState.players "p2").getD (freshPlayer "x" "x" "x" 0 0)) "B1"
      ((jsGet c8CollectedState.battles "B1").getD defaultBattle) c8InactivePickup
      (by decide) (by decide) (by decide) (by decide) (by decide),
   c8_pickup_requires_respawn.2.2 c8CollectedState "B1" "k1"
      ((jsGet c8CollectedState.battles "B1").getD defaultBattle) c8InactivePickup
      (by decide) (by decide)⟩

/-- C9 counterexample: `p1` is inside running race session `L1`
(membership `raceId = some "L1"`), yet `lobby:create` succeeds — a new
lobby `L2` is allocated and `p1`'s lobby membership is set — because
the handler checks only `player.lobbyId`, never the race/battle
membership. -/
theorem c9_create_allowed_during_race :
    ((jsGet (runEvents raceSetupEvents).players "p1").map (fun p => p.raceId)) =
      some (some "L1") ∧
    ((jsGet (runEvents raceSetupEvents).players "p1").map (fun p => p.lobbyId)) = some none ∧
    jsGet (runEvents (raceSetupEvents ++
        [Event.lobbyCreate "p1" (1, 2, 3) none none "L2" 5])).lobbies "L2" =
      some (freshLobby "p1" "Hosty" "L2" (1, 2, 3) none none 5) ∧
    ((jsGet (runEvents (raceSetupEvents ++
        [Event.lobbyCreate "p1" (1, 2, 3) none none "L2" 5])).players "p1").map
      (fun p => p.lobbyId)) = some (some "L2") := by
  refine ⟨by decide, by decide, by decide, by decide⟩

/-- C9 (amended): `lobby:create` is a no-op exactly when the caller's
`lobbyId` is non-null (or the caller is unknown); race/battle
membership is not consulted, so a player inside a running session with
`lobbyId = null` gets a fresh lobby allocated. -/
theorem c9_create_blocked_only_by_lobby_membership (s : ServerState) (sid : String)
    (position : Vec3) (mode : Option GameMode) (battleType : Option BattleType)
    (newLobbyId : String) (now : ℕ) (player : PlayerState)
    (hp : jsGet s.players sid = some player) :
    (∀ l, player.lobbyId = some l →
        lobbyCreate s sid position mode battleType newLobbyId now = (s, []))
    ∧ (player.lobbyId = none →
        jsGet (lobbyCreate s sid position mode battleType newLobbyId now).1.lobbies newLobbyId =
          some (freshLobby sid player.name newLobbyId position mode battleType now)) := by
  constructor
  · intro l hl
    unfold lobbyCreate
    rw [hp]
    dsimp only
    rw [hl]
  · intro hnone
    unfold lobbyCreate
    rw [hp]
    dsimp only
    rw [hnone]
    dsimp only
    exact jsGet_set_self s.lobbies newLobbyId _

theorem c9_create_blocked_only_by_lobby_membership_witness :
    lobbyCreate c7State "p1" (1, 2, 3) none none "L8" 9 = (c7State, []) ∧
    jsGet (lobbyCreate raceDemoState "p1" (1, 2, 3) none none "L2" 5).1.lobbies "L2" =
      some (freshLobby "p1" "Hosty" "L2" (1, 2, 3) none none 5) :=
  ⟨(c9_create_blocked_only_by_lobby_membership c7State "p1" (1, 2, 3) none none "L8" 9
      ((jsGet c7State.players "p1").getD (freshPlayer "x" "x" "x" 0 0)) (by decide)).1
      "L7" (by decide),
   (c9_create_blocked_only_by_lobby_membership raceDemoState "p1" (1, 2, 3) none none "L2" 5
      ((jsGet raceDemoState.players "p1").getD (freshPlayer "x" "x" "x" 0 0)) (by decide)).2
      (by decide)⟩

/-- The combat record left by a lethal self-hit: hp clamped to zero,
dead, both counters incremented on the single shared record. -/
def selfKilledRecord (bp : BattlePlayerState) (damage : Int) : BattlePlayerState :=
  { bp with
    hp := max 0 (bp.hp - damage)
    isDead := true
    deathCount := bp.deathCount + 1
    killCount := bp.killCount + 1 }

/-- C10: `battle:hit` with `targetId` equal to the shooter's own id is
processed like any other hit: a non-lethal self-hit reduces the
caller's own hp (clamped at 0); a lethal self-hit marks the caller
dead and, because target and shooter are the same record, increments
both their deathCount and their killCount, and in deathmatch mode adds
1 to their own score. -/
theorem c10_self_hit_processed (s : ServerState) (sid : String) (damage : Int) (bid : String)
    (player : PlayerState) (battle : BattleSession) (bp : BattlePlayerState)
    (hp : jsGet s.players sid = some player) (hrid : player.raceId = some bid)
    (hb : jsGet s.battles bid = some battle) (hbp : jsGet battle.players sid = some bp)
    (halive : bp.isDead = false) :
    ((0 : Int) < bp.hp - damage →
      ((jsGet (battleHit s sid sid damage).1.battles bid).bind (fun b => jsGet b.players sid)) =
        some { bp with hp := max 0 (bp.hp - damage) })
    ∧ (bp.hp - damage ≤ 0 →
      ((jsGet (battleHit s sid sid damage).1.battles bid).bind (fun b => jsGet b.players sid)) =
        some (selfKilledRecord bp damage)
      ∧ (battle.mode = BattleType.deathmatch →
          ((jsGet (battleHit s sid sid damage).1.battles bid).map (fun b => jsGet b.scores sid)) =
            some (some (jsGetD battle.scores sid 0 + 1)))) := by
  have hdead : ¬ (bp.isDead = true) := by
    rw [halive]
    exact Bool.noConfusion
  constructor
  · intro hpos
    unfold battleHit
    rw [hp]
    dsimp only
    rw [hrid]
    dsimp only
    rw [hb]
    dsimp only
    rw [hbp]
    dsimp only
    rw [if_neg hdead]
    have hcond : ¬ (max (0 : Int) (bp.hp - damage) ≤ 0) :=
      not_le.mpr (lt_of_lt_of_le hpos (le_max_right 0 _))
    rw [if_neg hcond]
    dsimp only
    rw [jsGet_set_self]
    dsimp only [Option.bind]
    rw [jsGet_set_self]
  · intro hle
    have hcond : max (0 : Int) (bp.hp - damage) ≤ 0 := max_le (le_refl 0) hle
    constructor
    · unfold battleHit
      rw [hp]
      dsimp only
      rw [hrid]
      dsimp only
      rw [hb]
      dsimp only
      rw [hbp]
      dsimp only
      rw [if_neg hdead]
      rw [if_pos hcond]
      simp only [jsGet_set_self, Option.bind]
      rfl
    · intro hmode
      unfold battleHit
      rw [hp]
      dsimp only
      rw [hrid]
      dsimp only
      rw [hb]
      dsimp only
      rw [hbp]
      dsimp only
      rw [if_neg hdead]
      rw [if_pos hcond]
      simp only [jsGet_set_self, Option.isSome_some, Option.map, eq_self_iff_true, true_and]
      rw [if_pos hmode]
      simp only [jsGet_set_self]

/-- `p1`'s combat record in the demo battle (hp 100, alive). -/
def c10Bp : BattlePlayerState :=
  (jsGet ((jsGet battleDemoState.battles "B1").getD defaultBattle).players "p1").getD
    defaultBattlePlayer

theorem c10_self_hit_processed_witness :
    ((jsGet (battleHit battleDemoState "p1" "p1" 30).1.battles "B1").bind
      (fun b => jsGet b.players "p1")) = some { c10Bp with hp := max 0 (c10Bp.hp - 30) } ∧
    ((jsGet (battleHit battleDemoState "p1" "p1" 100).1.battles "B1").bind
      (fun b => jsGet b.players "p1")) = some (selfKilledRecord c10Bp 100) ∧
    ((jsGet (battleHit battleDemoState "p1" "p1" 100).1.battles "B1").map
      (fun b => jsGet b.scores "p1")) =
      some (some (jsGetD ((jsGet battleDemoState.battles "B1").getD defaultBattle).scores "p1" 0 + 1)) :=
  ⟨(c10_self_hit_processed battleDemoState "p1" 30 "B1"
      ((jsGet battleDemoState.players "p1").getD (freshPlayer "x" "x" "x" 0 0))
      ((jsGet battleDemoState.battles "B1").getD defaultBattle) c10Bp
      (by decide) (by decide) (by decide) (by decide) (by decide)).1 (by decide),
   ((c10_self_hit_processed battleDemoState "p1" 100 "B1"
      ((jsGet battleDemoState.players "p1").getD (freshPlayer "x" "x" "x" 0 0))
      ((jsGet battleDemoState.battles "B1").getD defaultBattle) c10Bp
      (by decide) (by decide) (by decide) (by decide) (by decide)).2 (by decide)).1,
   ((c10_self_hit_processed battleDemoState "p1" 100 "B1"
      ((jsGet battleDemoState.players "p1").getD (freshPlayer "x" "x" "x" 0 0))
      ((jsGet battleDemoState.battles "B1").getD defaultBattle) c10Bp
      (by decide) (by decide) (by decide) (by decide) (by decide)).2 (by decide)).2 (by decide)⟩
